import Mathlib

/-!
# Universal CNC spindle motor controller: rotary selector and menu state machine

A shallow embedding of `src/encoder.cpp`, `src/userInterface.cpp` and the interrupt routine
`motorISR` of `src/motorstuff.cpp`.

Conventions of the embedding

* `int` fields are mathematical integers (`Int`). The functions of the main development
  compute on them without overflow, which is what the code computes while every `int` result
  is representable. `Encoder.update_spin_int32` and `routerInterface.managePress_int32` repeat
  the two functions with the 32-bit arithmetic made explicit (`int32`, `doubleToInt32`):
  signed overflow and an out-of-range conversion to `int`, both undefined in C++, are given
  the values of the compiled code. `update_spin_int32_eq` and `managePress_int32_eq` state
  when the two versions agree.
* `uint8_t` fields are naturals and every 8-bit computation is written with an explicit
  `% 256`.
* A hardware read (`digitalRead`) is an input of the function that performs it.
* A field that a constructor leaves unassigned is `none` (only `screenButton.state`).
* `Share <int>` and `Queue <int>` come from a library that is not part of the
  sources; they are modelled from the specification (see `System`, `Queue.get`, `Queue.put`).
* `log10` and `pow` of `math.h` are taken in exact real arithmetic, followed by
  the truncation of the `double` to `int` conversion.
-/

namespace Spindle

/-! ## Constants of `userInterface.h` -/

/-- The constant `REGULAR` of userInterface.h. -/
def REGULAR : Nat := 1
/-- The constant `EXTENDED` of userInterface.h. -/
def EXTENDED : Nat := 0
/-- The constant `UNPRESSED` of userInterface.h. -/
def UNPRESSED : Nat := 0
/-- The constant `PRESSED` of userInterface.h. -/
def PRESSED : Nat := 1
/-- The constant `OFF` of userInterface.h. -/
def OFF : Nat := 2
/-- The constant `ERASE` of userInterface.h. -/
def ERASE : Nat := 2
/-- The constant `HOVER` of userInterface.h. -/
def HOVER : Nat := 3

/-! ## The rotary encoder (`class Encoder`) -/

/-- The data members of `class Encoder` (encoder.h) that the member functions
read or write. The three pin numbers are constants of the wiring and are left out;
what is read from a pin is an argument of the function that reads it. -/
structure Encoder where
  /-- Field `uint8_t current_reading`. -/
  current_reading : Nat
  /-- Field `uint8_t previous_reading`. -/
  previous_reading : Nat
  /-- Field `bool pressed`. -/
  pressed : Bool
  /-- Field `int count`. -/
  count : Int
  /-- Field `int max_count`. -/
  max_count : Int
  /-- Field `int resolution`. -/
  resolution : Int
deriving DecidableEq, Repr

/-- The value `digitalRead` returns for a line level: `HIGH` is 1, `LOW` is 0. -/
def digitalRead (level : Bool) : Nat := if level then 1 else 0

/-- The constructor `Encoder::Encoder`. -/
def Encoder.new : Encoder :=
  { current_reading := 0, previous_reading := 0, pressed := false,
    count := 0, max_count := 1, resolution := 1 }

/-- The `for` loop of `Encoder::debounce` with `n` iterations left, at loop index `k`;
`pin k` is the level that the `k`-th `digitalRead (signal_pin)` sees. -/
def Encoder.debounce_loop (pin : Nat → Bool) : Nat → Nat → Nat → Nat
  | 0, _, debounce_count => debounce_count
  | n + 1, k, debounce_count =>
      Encoder.debounce_loop pin n (k + 1)
        (if digitalRead (pin k) ≠ 0 then (debounce_count + 1) % 256 else debounce_count)

/-- The function `Encoder::debounce (signal_pin, limit)`: the loop runs for `k = 0 .. limit - 1`
(`limit` is a `uint8_t`, so `k` never wraps), and the final comparison
`debounce_count > limit - 2` is made after promotion to `int`. -/
def Encoder.debounce (pin : Nat → Bool) (limit : Nat) : Bool :=
  let debounce_count := Encoder.debounce_loop pin limit 0 0
  decide ((debounce_count : Int) > (limit : Int) - 2)

/-- The function `Encoder::update_spin`: `A` and `B` are the levels read from `A_pin` and `B_pin`.
Returns the updated object and the returned `int`. The sum and the difference are those of
mathematical integers: exact while `count + resolution` and `count - resolution` are
representable as `int`; `Encoder.update_spin_int32` below covers the other inputs. -/
def Encoder.update_spin (e : Encoder) (A B : Bool) : Encoder × Int :=
  let current_reading := (digitalRead B * 2 + digitalRead A) % 256
  let sum := (e.previous_reading * 4 + current_reading) % 256
  let count1 :=
    if (sum = 13 ∨ sum = 4 ∨ sum = 2 ∨ sum = 11) ∧ e.count < e.max_count
    then e.count + e.resolution else e.count
  let count2 :=
    if (sum = 14 ∨ sum = 7 ∨ sum = 1 ∨ sum = 8) ∧ count1 ≥ e.resolution
    then count1 - e.resolution else count1
  ({ e with current_reading := current_reading, previous_reading := current_reading,
            count := count2 }, count2)

/-- The function `Encoder::update_press`: debounces the button pin with limit 50 and stores
the outcome in `pressed`. -/
def Encoder.update_press (e : Encoder) (pin : Nat → Bool) : Encoder × Bool :=
  let pressed := if Encoder.debounce pin 50 then true else false
  ({ e with pressed := pressed }, pressed)

/-! ## Arithmetic of `math.h` used by the menu -/

/-- The integer part of the decimal logarithm of `n` for `n ≥ 1`, by repeated division;
`fuel` is any number that is at least `n`. -/
def floorLog10 : Nat → Nat → Nat
  | 0, _ => 0
  | fuel + 1, n => if n < 10 then 0 else floorLog10 fuel (n / 10) + 1

/-- The expression `log10(resolution)*resolution` converted to `int`, in exact real
arithmetic: for `r ≥ 1` the truncation of `r * log10 r = log10 (r ^ r)`. For `r ≤ 0`
the C++ conversion has no defined value (NaN); the model gives 0. -/
def log10_times (r : Int) : Int :=
  if 1 ≤ r then (floorLog10 (r.toNat ^ r.toNat) (r.toNat ^ r.toNat) : Nat) else 0

/-- The integer part of `pow(10, k)` in exact real arithmetic: `10 ^ k` for `k ≥ 0`, and 0
(the truncation of a value strictly between 0 and 1) for `k < 0`. It is the value the
conversion to `int` stores for `k ≤ 9`; from `k = 10` on the power is not representable
(see `doubleToInt32`). -/
def pow10 (k : Int) : Int := if 0 ≤ k then 10 ^ k.toNat else 0

/-! ## On-screen buttons (`class screenButton`) -/

/-- The data members of `class screenButton`. `state` is `none` until it is first assigned:
the constructor does not assign it. -/
structure screenButton where
  /-- Field `uint8_t rect_rad`. -/
  rect_rad : Nat
  /-- Field `uint8_t width`. -/
  width : Nat
  /-- Field `uint8_t height`. -/
  height : Nat
  /-- Field `bool buttonType`. -/
  buttonType : Bool
  /-- Field `bool refresh`. -/
  refresh : Bool
  /-- Field `uint8_t state`. -/
  state : Option Nat
  /-- Field `String text`. -/
  text : String
  /-- Field `uint8_t x_coord`. -/
  x_coord : Nat
  /-- Field `uint8_t y_coord`. -/
  y_coord : Nat
deriving DecidableEq, Repr

/-- The constructor `screenButton::screenButton (label, X, Y, ButtonType)`. For a button type
other than `EXTENDED` and `REGULAR` (none is ever passed) the geometry stays unassigned; the
model puts zeros there. -/
def screenButton.new (label : String) (X Y ButtonType : Nat) : screenButton :=
  if ButtonType = EXTENDED then
    { rect_rad := 3, width := 105, height := 15, buttonType := false,
      refresh := false, state := none, text := label, x_coord := X % 256, y_coord := Y % 256 }
  else if ButtonType = REGULAR then
    { rect_rad := 5, width := 50, height := 15, buttonType := true,
      refresh := false, state := none, text := label, x_coord := X % 256, y_coord := Y % 256 }
  else
    { rect_rad := 0, width := 0, height := 0, buttonType := false,
      refresh := false, state := none, text := label, x_coord := X % 256, y_coord := Y % 256 }

/-- A request handed to the display collaborator: which drawing member function was called,
on which button (a snapshot of its fields), and with which `action`. -/
inductive DrawRequest where
  | displayRegular (button : screenButton) (action : Nat)
  | displayHover (button : screenButton)
deriving DecidableEq, Repr

/-- The function `screenButton::update (display)`; the display is the list of requests issued so
far, the newest last. -/
def screenButton.update (b : screenButton) (display : List DrawRequest) :
    screenButton × List DrawRequest :=
  if b.refresh then
    let display1 :=
      if b.state = some UNPRESSED then display ++ [DrawRequest.displayRegular b 0]
      else if b.state = some PRESSED then display ++ [DrawRequest.displayRegular b PRESSED]
      else if b.state = some OFF then display ++ [DrawRequest.displayRegular b ERASE]
      else if b.state = some HOVER then display ++ [DrawRequest.displayHover b]
      else display
    ({ b with refresh := false }, display1)
  else (b, display)

/-- The statement pair `X->state = st; X->refresh = true;`. -/
def screenButton.setState (b : screenButton) (st : Nat) : screenButton :=
  { b with state := some st, refresh := true }

/-! ## The menu (`class routerInterface`) and the objects it shares with other tasks -/

/-- The data members of `class routerInterface` that its member functions read or write. -/
structure routerInterface where
  /-- Field `uint8_t page_state`. -/
  page_state : Nat
  /-- Field `uint8_t button_state`. -/
  button_state : Nat
  /-- Field `bool static_disp_done`. -/
  static_disp_done : Bool
  /-- Field `bool selected`. -/
  selected : Bool
  /-- The button `*SET`. -/
  SET : screenButton
  /-- The button `*VIEW`. -/
  VIEW : screenButton
  /-- The button `*RES`. -/
  RES : screenButton
  /-- The button `*SPEED`. -/
  SPEED : screenButton
  /-- The button `*MES`. -/
  MES : screenButton
  /-- The requests issued to `*display`, the newest last. -/
  display : List DrawRequest
deriving DecidableEq, Repr

/-- The constructor `routerInterface::routerInterface`. -/
def routerInterface.new : routerInterface :=
  { page_state := 0, button_state := 0, static_disp_done := false, selected := false,
    SET := (screenButton.new "Set" 0 0 REGULAR).setState HOVER,
    VIEW := (screenButton.new "View" 78 0 REGULAR).setState UNPRESSED,
    RES := screenButton.new "RES.....1" 2 35 EXTENDED,
    SPEED := screenButton.new ("RPM:" ++ toString (0 : Int)) 2 60 EXTENDED,
    MES := screenButton.new "RPM:" 2 35 EXTENDED,
    display := [] }

/-- The objects the user-interface task works on: the interface `myInterface`, the encoder
`myEncoder`, and the globals shared with the motor task.

Modelled from the spec: `Share <int>` and `Queue <int>` are declared in `taskshare.h` and
`taskqueue.h`, which are not among the sources. A share is a single-slot overwrite register
(`get` copies the slot into its argument, `put` replaces the slot), so it is an `Int` field;
the queue is a bounded FIFO, the oldest sample first. -/
structure System where
  /-- The object `myInterface` of `task_UI`. -/
  ui : routerInterface
  /-- The global `myEncoder`. -/
  myEncoder : Encoder
  /-- The global `Share <int> speed_SP`: the setpoint register. -/
  speed_SP : Int
  /-- The global `Share <int> maxMotorSpeed`: the max-speed register. -/
  maxMotorSpeed : Int
  /-- The global `Queue <int> actualMotorSpeed`: the measured-speed queue. -/
  actualMotorSpeed : List Int
  /-- The global `bool motorEncoderRun`. -/
  motorEncoderRun : Bool
deriving DecidableEq, Repr

/-- Modelled from the spec: `Queue::get (recv_item)` of the absent `taskqueue.h`. The removal
is non-blocking: it takes out the oldest unread sample and stores it in `recv_item`, and on an
empty queue it leaves `recv_item` as it was. Returns the value of `recv_item` afterwards and
the remaining queue. -/
def Queue.get (queue : List Int) (recv_item : Int) : Int × List Int :=
  match queue with
  | [] => (recv_item, [])
  | item :: rest => (item, rest)

/-- Modelled from the spec: `Queue::put (item)` of the absent `taskqueue.h`, for the queue of
capacity 30 created in motorstuff.cpp: the producer never blocks, a full queue drops its
oldest sample. -/
def Queue.put (queue : List Int) (item : Int) : List Int :=
  if queue.length < 30 then queue ++ [item] else queue.tail ++ [item]

/-- The function `routerInterface::managePress (encoder)`, with `encoder` bound to `myEncoder`.
The division `encoder.count/encoder.resolution` is the truncating division of C++ (`Int.tdiv`);
a zero divisor, undefined in C++, gives 0 in the model. The products and the power are those
of mathematical integers: exact while each of them is representable as `int`;
`routerInterface.managePress_int32` below covers the other inputs. -/
def routerInterface.managePress (s : System) : System :=
  let ui := s.ui
  let encoder := s.myEncoder
  let s1 : System :=
    if ui.button_state = 0 then
      if ui.SET.state = some HOVER then
        { s with
          ui := { ui with
            SET := ui.SET.setState PRESSED,
            RES := ui.RES.setState UNPRESSED,
            SPEED := ui.SPEED.setState UNPRESSED,
            button_state := 1 },
          myEncoder := { encoder with max_count := 3 * encoder.resolution } }
      else if ui.VIEW.state = some HOVER then
        let currentSP := s.speed_SP
        { s with
          ui := { ui with
            VIEW := ui.VIEW.setState PRESSED,
            SPEED := ({ ui.SPEED with text := "SP:" ++ toString currentSP }).setState UNPRESSED,
            MES := ui.MES.setState UNPRESSED,
            button_state := 2 },
          motorEncoderRun := true }
      else s
    else if ui.button_state = 1 then
      if ui.VIEW.state = some HOVER then
        { s with
          ui := { ui with
            RES := ui.RES.setState OFF,
            SPEED := ui.SPEED.setState OFF,
            SET := ui.SET.setState UNPRESSED,
            button_state := 0 },
          myEncoder := { encoder with max_count := encoder.resolution } }
      else if ui.RES.state = some HOVER then
        { s with
          ui := { ui with
            RES := ui.RES.setState PRESSED,
            button_state := 3 },
          myEncoder := { encoder with
            count := log10_times encoder.resolution,
            max_count := 3 * encoder.resolution } }
      else if ui.SPEED.state = some HOVER then
        { s with
          ui := { ui with
            SPEED := ui.SPEED.setState PRESSED,
            button_state := 4 },
          myEncoder := { encoder with
            max_count := s.maxMotorSpeed,
            count := s.speed_SP } }
      else
        { s with
          ui := { ui with
            RES := ui.RES.setState OFF,
            SPEED := ui.SPEED.setState OFF,
            SET := ui.SET.setState UNPRESSED,
            button_state := 0 },
          myEncoder := { encoder with max_count := encoder.resolution } }
    else if ui.button_state = 2 then
      let ui1 : routerInterface :=
        if ui.SET.state = some HOVER then
          { ui with VIEW := ui.VIEW.setState UNPRESSED }
        else
          { ui with
            VIEW := ui.VIEW.setState HOVER,
            SPEED := ui.SPEED.setState OFF,
            MES := ui.MES.setState OFF }
      { s with
        ui := { ui1 with button_state := 0 },
        myEncoder := { encoder with max_count := encoder.resolution } }
    else if ui.button_state = 3 then
      let resolution := pow10 (Int.tdiv encoder.count encoder.resolution)
      { s with
        ui := { ui with
          RES := ui.RES.setState HOVER,
          button_state := 1 },
        myEncoder := { encoder with
          resolution := resolution,
          count := 2 * resolution,
          max_count := 3 * resolution } }
    else if ui.button_state = 4 then
      { s with
        ui := { ui with
          SPEED := ui.SPEED.setState HOVER,
          button_state := 1 },
        speed_SP := encoder.count,
        myEncoder := { encoder with
          count := 3 * encoder.resolution,
          max_count := 3 * encoder.resolution } }
    else s
  { s1 with myEncoder := { s1.myEncoder with pressed := false } }

/-- The function `routerInterface::manageSpin (encoder)`: the Neutral state. -/
def routerInterface.manageSpin (s : System) : System :=
  let ui := s.ui
  if s.myEncoder.count = 0 then
    { s with ui := { ui with SET := ui.SET.setState HOVER, VIEW := ui.VIEW.setState UNPRESSED } }
  else if s.myEncoder.count = s.myEncoder.resolution then
    { s with ui := { ui with SET := ui.SET.setState UNPRESSED, VIEW := ui.VIEW.setState HOVER } }
  else s

/-- The function `routerInterface::manageRes (encoder)`: the EditingResolution state. -/
def routerInterface.manageRes (s : System) : System :=
  let ui := s.ui
  let RES1 : screenButton :=
    if s.myEncoder.count = 0 then { ui.RES with text := "RES.....1" }
    else if s.myEncoder.count = s.myEncoder.resolution then { ui.RES with text := "RES....10" }
    else if s.myEncoder.count = 2 * s.myEncoder.resolution then { ui.RES with text := "RES...100" }
    else if s.myEncoder.count = 3 * s.myEncoder.resolution then { ui.RES with text := "RES..1000" }
    else ui.RES
  { s with ui := { ui with RES := { RES1 with refresh := true } } }

/-- The function `routerInterface::manageSet (encoder)`: the SetMenu state. -/
def routerInterface.manageSet (s : System) : System :=
  let ui := s.ui
  if s.myEncoder.count = 0 then
    { s with ui := { ui with
        VIEW := ui.VIEW.setState UNPRESSED,
        RES := ui.RES.setState UNPRESSED,
        SPEED := ui.SPEED.setState UNPRESSED } }
  else if s.myEncoder.count = s.myEncoder.resolution then
    { s with ui := { ui with
        VIEW := ui.VIEW.setState HOVER,
        RES := ui.RES.setState UNPRESSED,
        SPEED := ui.SPEED.setState UNPRESSED } }
  else if s.myEncoder.count = 2 * s.myEncoder.resolution then
    { s with ui := { ui with
        VIEW := ui.VIEW.setState UNPRESSED,
        RES := ui.RES.setState HOVER,
        SPEED := ui.SPEED.setState UNPRESSED } }
  else if s.myEncoder.count = 3 * s.myEncoder.resolution then
    { s with ui := { ui with
        VIEW := ui.VIEW.setState UNPRESSED,
        RES := ui.RES.setState UNPRESSED,
        SPEED := ui.SPEED.setState HOVER } }
  else s

/-- The function `routerInterface::manageView (encoder)`: the ViewMode state. The local
`currentSpeed` is declared without a value; `uninit` is the value it happens to hold before
`actualMotorSpeed.get` is called. -/
def routerInterface.manageView (s : System) (uninit : Int) : System :=
  let ui := s.ui
  let got := Queue.get s.actualMotorSpeed uninit
  let currentSpeed := got.1
  { s with
    ui := { ui with MES := { ui.MES with text := "RPM:" ++ toString currentSpeed, refresh := true } },
    actualMotorSpeed := got.2 }

/-- The function `routerInterface::manageSpeed (encoder)`: the EditingSpeed state. -/
def routerInterface.manageSpeed (s : System) : System :=
  let ui := s.ui
  { s with ui := { ui with
      SPEED := { ui.SPEED with text := "RPM:" ++ toString s.myEncoder.count, refresh := true } } }

/-- The five `update` calls at the head of `routerInterface::refresh`. -/
def routerInterface.updateButtons (ui : routerInterface) : routerInterface :=
  let r1 := ui.SET.update ui.display
  let r2 := ui.VIEW.update r1.2
  let r3 := ui.RES.update r2.2
  let r4 := ui.SPEED.update r3.2
  let r5 := ui.MES.update r4.2
  { ui with SET := r1.1, VIEW := r2.1, RES := r3.1, SPEED := r4.1, MES := r5.1, display := r5.2 }

/-- The function `routerInterface::refresh (encoder)`, one menu tick; `uninit` is passed on to
`manageView`. -/
def routerInterface.refresh (s : System) (uninit : Int) : System :=
  let s1 : System := { s with ui := s.ui.updateButtons }
  if s1.myEncoder.pressed then routerInterface.managePress s1
  else if s1.ui.button_state = 1 then routerInterface.manageSet s1
  else if s1.ui.button_state = 2 then routerInterface.manageView s1 uninit
  else if s1.ui.button_state = 3 then routerInterface.manageRes s1
  else if s1.ui.button_state = 4 then routerInterface.manageSpeed s1
  else routerInterface.manageSpin s1

/-! ## The running program: startup state and events -/

/-- The state in which `task_UI` enters its loop: `myEncoder` as constructed (with
`myEncoder.count = 0` assigned again), `myInterface` as constructed, 325 put into
`maxMotorSpeed`, 0 put into `speed_SP`, the queue empty. -/
def startup : System :=
  { ui := routerInterface.new,
    myEncoder := { Encoder.new with count := 0 },
    speed_SP := 0,
    maxMotorSpeed := 325,
    actualMotorSpeed := [],
    motorEncoderRun := false }

/-- What can happen to the objects of the user-interface task. -/
inductive Event where
  /-- The interrupt `A_pin_ISR`: a decoder step with the levels of the two lines. -/
  | spin (A B : Bool)
  /-- The interrupt `press_ISR`: `update_press` with the levels the debouncer polls. -/
  | press (pin : Nat → Bool)
  /-- One pass of the loop of `task_UI`: a menu tick. -/
  | tick (uninit : Int)
  /-- The interrupt `motorISR` publishing a measured speed into the queue. -/
  | motorSample (speed : Int)

/-- The effect of one event. -/
def step (s : System) : Event → System
  | Event.spin A B => { s with myEncoder := (s.myEncoder.update_spin A B).1 }
  | Event.press pin => { s with myEncoder := (s.myEncoder.update_press pin).1 }
  | Event.tick uninit => routerInterface.refresh s uninit
  | Event.motorSample speed => { s with actualMotorSpeed := Queue.put s.actualMotorSpeed speed }

/-- The effect of a sequence of events, the first event first. -/
def run (s : System) (events : List Event) : System := events.foldl step s

/-- The states the program can be in: those a sequence of events leads to from startup. -/
def Reachable (s : System) : Prop := ∃ events : List Event, run startup events = s

/-- A button pressed firmly: every polled level is high. -/
def firmPress : Nat → Bool := fun _ => true

/-- The decoder step number `i` of a steady turn of the knob in the counting-up direction:
the samples 2, 3, 1, 0, 2, 3, ... -/
def forwardTurn (i : Nat) : Event :=
  if i % 4 = 0 then Event.spin false true
  else if i % 4 = 1 then Event.spin true true
  else if i % 4 = 2 then Event.spin true false
  else Event.spin false false

/-- The event sequence of `n` steps of a steady turn, beginning with step number `start`, a menu
tick after every step. -/
def turnWithTicks (start n : Nat) : List Event :=
  (List.range n).flatMap fun i => [forwardTurn (start + i), Event.tick 0]

/-- The event sequence of a firm press of the button followed by a menu tick. -/
def pressAndTick : List Event := [Event.press firmPress, Event.tick 0]

/-- What the menu keeps true of the hovered options: in SetMenu, VIEW and RES are not both
hovered; while a value is edited (EditingResolution, EditingSpeed), VIEW is not hovered. -/
def HoverInv (s : System) : Prop :=
  (s.ui.button_state = 1 → ¬ (s.ui.VIEW.state = some HOVER ∧ s.ui.RES.state = some HOVER))
    ∧ (s.ui.button_state = 3 ∨ s.ui.button_state = 4 → s.ui.VIEW.state ≠ some HOVER)

/-- What the menu keeps true of the resolution: it is one of 1, 10, 100, 1000, and while the
resolution is edited the selector range is three steps and the count is a whole number of
steps, at most three. -/
def ResInv (s : System) : Prop :=
  (s.myEncoder.resolution = 1 ∨ s.myEncoder.resolution = 10
      ∨ s.myEncoder.resolution = 100 ∨ s.myEncoder.resolution = 1000)
    ∧ (s.ui.button_state = 3 →
        s.myEncoder.max_count = 3 * s.myEncoder.resolution
        ∧ ∃ k : Nat, k ≤ 3 ∧ s.myEncoder.count = k * s.myEncoder.resolution)

/-! ## The debouncer as a loop that tests its condition -/

/-- The `for` loop of `Encoder::debounce` run for at most `fuel` iterations, from loop index `k`
(a `uint8_t`, incremented modulo 256) with `debounce_count` highs counted and `polls` calls of
`digitalRead` made so far; `pin i` is the level seen by the call number `i`. Every iteration
first tests `k < limit`. The result is `none` when the loop is still running after `fuel`
iterations, otherwise the final `debounce_count` and the number of polls. -/
def Encoder.debounce_for (pin : Nat → Bool) (limit : Nat) : Nat → Nat → Nat → Nat → Option (Nat × Nat)
  | 0, k, debounce_count, polls => if k < limit then none else some (debounce_count, polls)
  | fuel + 1, k, debounce_count, polls =>
      if k < limit then
        Encoder.debounce_for pin limit fuel ((k + 1) % 256)
          (if digitalRead (pin polls) ≠ 0 then (debounce_count + 1) % 256 else debounce_count)
          (polls + 1)
      else some (debounce_count, polls)

/-- The number of high readings among the first `n` polls of the pin. -/
def highReadings (pin : Nat → Bool) (n : Nat) : Nat := (List.range n).countP pin

/-! ## The motor encoder (`class motorEncoder`) -/

/-- The data members of `class motorEncoder` that `update` reads or writes (the two pin numbers
are left out). `speed_RPM`, a `float` in the source, is an exact rational in the model. -/
structure motorEncoder where
  /-- Field `int count`: the position in encoder ticks. -/
  count : Int
  /-- Field `uint32_t timestamp_previous_interrupt`. -/
  timestamp_previous_interrupt : Nat
  /-- Field `volatile float speed_RPM`: the rate. -/
  speed_RPM : ℚ
  /-- Field `int count_previous_interrupt`. -/
  count_previous_interrupt : Int
  /-- Field `bool direction`. -/
  direction : Bool
  /-- Field `uint8_t counts_until_update`: the tick counter. -/
  counts_until_update : Nat
  /-- Field `int motorSpeed`: the published speed. -/
  motorSpeed : Int
  /-- Field `uint8_t counts_per_rev`. -/
  counts_per_rev : Nat
  /-- Field `uint8_t update_frequency`: the update cadence. -/
  update_frequency : Nat

/-- The constructor `motorEncoder::motorEncoder`. It assigns neither `motorSpeed` nor
`counts_per_rev` nor `update_frequency`; the values these fields hold are arguments of the
model. -/
def motorEncoder.new (motorSpeed : Int) (counts_per_rev update_frequency : Nat) : motorEncoder :=
  { count := 0, timestamp_previous_interrupt := 0, speed_RPM := 0,
    count_previous_interrupt := 0, direction := false, counts_until_update := 0,
    motorSpeed := motorSpeed, counts_per_rev := counts_per_rev,
    update_frequency := update_frequency }

/-- The condition `counts_until_update > update_frequency` as `motorEncoder::update` evaluates
it, after the 8-bit increment of the tick counter, when called in state `m`. -/
def motorEncoder.update_due (m : motorEncoder) : Prop :=
  (m.counts_until_update + 1) % 256 > m.update_frequency

/-- The function `motorEncoder::update (timestamp, dir)`. The factor `1000000*60/counts_per_rev`
is an integer division, as in the source; a zero divisor, undefined in C++, gives 0 in the
model. The conversion `(int)speed_RPM` truncates toward zero. -/
def motorEncoder.update (m : motorEncoder) (timestamp : Nat) (dir : Bool) : motorEncoder :=
  let direction := dir
  let count := if direction then m.count - 1 else m.count + 1
  let counts_until_update := (m.counts_until_update + 1) % 256
  if counts_until_update > m.update_frequency then
    let rate : ℚ × Int :=
      if m.timestamp_previous_interrupt < timestamp then
        let time_between_interrupts : ℚ := ((timestamp - m.timestamp_previous_interrupt : Nat) : ℚ)
        let counts_between_interrupts : Int := |count - m.count_previous_interrupt|
        let speed_RPM : ℚ := (counts_between_interrupts : ℚ) / time_between_interrupts
        let speed_RPM : ℚ := speed_RPM * ((1000000 * 60 / m.counts_per_rev : Nat) : ℚ)
        (speed_RPM, Int.tdiv speed_RPM.num speed_RPM.den)
      else (m.speed_RPM, m.motorSpeed)
    { m with
      direction := direction, count := count, speed_RPM := rate.1, motorSpeed := rate.2,
      timestamp_previous_interrupt := timestamp, count_previous_interrupt := count,
      counts_until_update := 0 }
  else
    { m with direction := direction, count := count, counts_until_update := counts_until_update }

/-- The effect of a sequence of calls of `motorEncoder::update`, the first call first; an
element of `inputs` is the pair `(timestamp, dir)` of one call. -/
def motorEncoder.updates (m : motorEncoder) (inputs : List (Nat × Bool)) : motorEncoder :=
  inputs.foldl (fun state input => state.update input.1 input.2) m

/-- The divisor with which a call of `motorEncoder::update` in state `m` evaluates the integer
division `1000000*60/counts_per_rev`: the division is reached when the rate-update branch is
entered and the stored timestamp is below the one of the call; otherwise the call makes no
division and the value is `none`. -/
def motorEncoder.update_divisor (m : motorEncoder) (timestamp : Nat) : Option Nat :=
  if (m.counts_until_update + 1) % 256 > m.update_frequency then
    if m.timestamp_previous_interrupt < timestamp then some m.counts_per_rev else none
  else none

/-- The global `myMotorEncoder` of motorstuff.cpp as its constructor leaves it. The object has
static storage, so it is zero-initialised before the constructor runs, and the three fields
the constructor does not assign hold 0. -/
def myMotorEncoder : motorEncoder := motorEncoder.new 0 0 0

/-- The interrupt routine `motorISR`: `micros` is what `micros()` returns, `pinB` the level of
`motorEncoderPinB`; the queue is `actualMotorSpeed`. -/
def motorISR (m : motorEncoder) (queue : List Int) (micros : Nat) (pinB : Bool) :
    motorEncoder × List Int :=
  let current_time_stamp := micros
  let direction : Bool := decide (digitalRead pinB ≠ 0)
  let m1 := m.update current_time_stamp direction
  (m1, Queue.put queue m1.motorSpeed)

/-- The sum of the position steps of a sequence of calls of `update`: a call with `dir` set
steps the position down, one without steps it up. -/
def netTicks (inputs : List (Nat × Bool)) : Int :=
  (inputs.map fun input => if input.2 then (-1 : Int) else 1).sum

/-! ## Hovered buttons -/

/-- The number of the five buttons whose visual state is `HOVER`; a button whose state was never
assigned does not count. -/
def routerInterface.hoverCount (ui : routerInterface) : Nat :=
  [ui.SET, ui.VIEW, ui.RES, ui.SPEED, ui.MES].countP fun b => decide (b.state = some HOVER)

/-- What the menu keeps true of the hovered buttons, state by state: MES is never hovered; in
Neutral only SET or VIEW can be hovered, not both; in SetMenu only one of VIEW, RES, SPEED; in
ViewMode and while a value is edited, none of SET, VIEW, RES, SPEED; the menu state is one of
0..4. -/
def OneHoverInv (ui : routerInterface) : Prop :=
  ui.MES.state ≠ some HOVER
    ∧ ui.button_state ≤ 4
    ∧ (ui.button_state = 0 →
        ui.RES.state ≠ some HOVER ∧ ui.SPEED.state ≠ some HOVER
        ∧ ¬ (ui.SET.state = some HOVER ∧ ui.VIEW.state = some HOVER))
    ∧ (ui.button_state = 1 →
        ui.SET.state ≠ some HOVER
        ∧ ¬ (ui.VIEW.state = some HOVER ∧ ui.RES.state = some HOVER)
        ∧ ¬ (ui.VIEW.state = some HOVER ∧ ui.SPEED.state = some HOVER)
        ∧ ¬ (ui.RES.state = some HOVER ∧ ui.SPEED.state = some HOVER))
    ∧ (2 ≤ ui.button_state →
        ui.SET.state ≠ some HOVER ∧ ui.VIEW.state ≠ some HOVER
        ∧ ui.RES.state ≠ some HOVER ∧ ui.SPEED.state ≠ some HOVER)

/-- One menu tick with the selector set to an arbitrary value beforehand: `input.1` is the
encoder object handed to `refresh` (count, bounds, resolution and press flag), `input.2` the
value of the unassigned local of `manageView`. -/
def tickWith (s : System) (input : Encoder × Int) : System :=
  routerInterface.refresh { s with myEncoder := input.1 } input.2

/-- The states reached from the constructed interface by menu ticks with arbitrary selector
values and press flags. -/
def TickReachable (s : System) : Prop :=
  ∃ inputs : List (Encoder × Int), inputs.foldl tickWith startup = s

/-! ## The serial fallback input (`virtualEncoder::parseIntWithEcho`) -/

/-- The loop of `virtualEncoder::parseIntWithEcho` on the characters the stream delivers, with
the 8-bit character counter `count` and the writes into `in_buf` made so far, each as
(index, character), the oldest first. `MAX_INT_DIGITS` is 24; backspace is character 8,
newline character 10, NUL character 0. On return the result holds all writes, the last one
being the terminating NUL, and the characters not yet read; when the stream ends before the
function returns, the function waits in `readBytes` and the result is `none`. The value
`atoi (in_buf)` is not part of the model. -/
def virtualEncoder.parseIntWithEcho_loop :
    List Char → Nat → List (Nat × Char) → Option (List (Nat × Char) × List Char)
  | [], _, _ => none
  | ch_in :: rest, count, writes =>
      let writes1 := writes ++ [(count, ch_in)]
      let count1 := (count + 1) % 256
      let count2 := if ch_in = Char.ofNat 8 ∧ count1 ≠ 0 then (count1 + 256 - 2) % 256 else count1
      if ch_in = Char.ofNat 10 ∨ count2 ≥ 24 - 1 then
        some (writes1 ++ [(count2, Char.ofNat 0)], rest)
      else virtualEncoder.parseIntWithEcho_loop rest count2 writes1

/-- The function `virtualEncoder::parseIntWithEcho (stream)`: the loop started with `count = 0`
and no write made. -/
def virtualEncoder.parseIntWithEcho (stream : List Char) :
    Option (List (Nat × Char) × List Char) :=
  virtualEncoder.parseIntWithEcho_loop stream 0 []

/-! ## The 32-bit `int` of the target

The functions above compute on mathematical integers, which is what the code computes as long
as every `int` result is representable. The definitions of this section repeat
`Encoder::update_spin` and `routerInterface::managePress` with the 32-bit arithmetic of `int`
made explicit, for the properties that depend on it. -/

/-- The integer `x` is representable as a 32-bit `int`. -/
def InInt32 (x : Int) : Prop := -2147483648 ≤ x ∧ x ≤ 2147483647

instance (x : Int) : Decidable (InInt32 x) := by
  unfold InInt32
  exact inferInstance

/-- The value an `int` addition, subtraction or multiplication stores when its mathematical
result is `x`: `x` itself when it is representable, and otherwise `x` reduced modulo `2 ^ 32`
into the range of `int` (signed overflow is undefined in C++; the compiled code wraps). -/
def int32 (x : Int) : Int := (x + 2147483648) % 4294967296 - 2147483648

/-- The conversion to `int` of a `double` whose integer part is `x`: `x` when it is
representable. Otherwise the conversion is undefined in C++ and the model gives -2147483648,
the value the conversion instruction delivers for an operand out of range. -/
def doubleToInt32 (x : Int) : Int :=
  if -2147483648 ≤ x ∧ x ≤ 2147483647 then x else -2147483648

/-- The function `Encoder::update_spin` with `count += resolution` and `count -= resolution`
computed in 32-bit `int` arithmetic. -/
def Encoder.update_spin_int32 (e : Encoder) (A B : Bool) : Encoder × Int :=
  let current_reading := (digitalRead B * 2 + digitalRead A) % 256
  let sum := (e.previous_reading * 4 + current_reading) % 256
  let count1 :=
    if (sum = 13 ∨ sum = 4 ∨ sum = 2 ∨ sum = 11) ∧ e.count < e.max_count
    then int32 (e.count + e.resolution) else e.count
  let count2 :=
    if (sum = 14 ∨ sum = 7 ∨ sum = 1 ∨ sum = 8) ∧ count1 ≥ e.resolution
    then int32 (count1 - e.resolution) else count1
  ({ e with current_reading := current_reading, previous_reading := current_reading,
            count := count2 }, count2)

/-- The function `routerInterface::managePress (encoder)` with every `int` product computed in
32-bit arithmetic and every `double` value converted to `int` on assignment. -/
def routerInterface.managePress_int32 (s : System) : System :=
  let ui := s.ui
  let encoder := s.myEncoder
  let s1 : System :=
    if ui.button_state = 0 then
      if ui.SET.state = some HOVER then
        { s with
          ui := { ui with
            SET := ui.SET.setState PRESSED,
            RES := ui.RES.setState UNPRESSED,
            SPEED := ui.SPEED.setState UNPRESSED,
            button_state := 1 },
          myEncoder := { encoder with max_count := int32 (3 * encoder.resolution) } }
      else if ui.VIEW.state = some HOVER then
        let currentSP := s.speed_SP
        { s with
          ui := { ui with
            VIEW := ui.VIEW.setState PRESSED,
            SPEED := ({ ui.SPEED with text := "SP:" ++ toString currentSP }).setState UNPRESSED,
            MES := ui.MES.setState UNPRESSED,
            button_state := 2 },
          motorEncoderRun := true }
      else s
    else if ui.button_state = 1 then
      if ui.VIEW.state = some HOVER then
        { s with
          ui := { ui with
            RES := ui.RES.setState OFF,
            SPEED := ui.SPEED.setState OFF,
            SET := ui.SET.setState UNPRESSED,
            button_state := 0 },
          myEncoder := { encoder with max_count := encoder.resolution } }
      else if ui.RES.state = some HOVER then
        { s with
          ui := { ui with
            RES := ui.RES.setState PRESSED,
            button_state := 3 },
          myEncoder := { encoder with
            count := doubleToInt32 (log10_times encoder.resolution),
            max_count := int32 (3 * encoder.resolution) } }
      else if ui.SPEED.state = some HOVER then
        { s with
          ui := { ui with
            SPEED := ui.SPEED.setState PRESSED,
            button_state := 4 },
          myEncoder := { encoder with
            max_count := s.maxMotorSpeed,
            count := s.speed_SP } }
      else
        { s with
          ui := { ui with
            RES := ui.RES.setState OFF,
            SPEED := ui.SPEED.setState OFF,
            SET := ui.SET.setState UNPRESSED,
            button_state := 0 },
          myEncoder := { encoder with max_count := encoder.resolution } }
    else if ui.button_state = 2 then
      let ui1 : routerInterface :=
        if ui.SET.state = some HOVER then
          { ui with VIEW := ui.VIEW.setState UNPRESSED }
        else
          { ui with
            VIEW := ui.VIEW.setState HOVER,
            SPEED := ui.SPEED.setState OFF,
            MES := ui.MES.setState OFF }
      { s with
        ui := { ui1 with button_state := 0 },
        myEncoder := { encoder with max_count := encoder.resolution } }
    else if ui.button_state = 3 then
      let resolution := doubleToInt32 (pow10 (Int.tdiv encoder.count encoder.resolution))
      { s with
        ui := { ui with
          RES := ui.RES.setState HOVER,
          button_state := 1 },
        myEncoder := { encoder with
          resolution := resolution,
          count := int32 (2 * resolution),
          max_count := int32 (3 * resolution) } }
    else if ui.button_state = 4 then
      { s with
        ui := { ui with
          SPEED := ui.SPEED.setState HOVER,
          button_state := 1 },
        speed_SP := encoder.count,
        myEncoder := { encoder with
          count := int32 (3 * encoder.resolution),
          max_count := int32 (3 * encoder.resolution) } }
    else s
  { s1 with myEncoder := { s1.myEncoder with pressed := false } }

/-! # Theorems -/

/-! ## The quadrature decoder -/

/-- The stored previous sample is a two-bit sample after construction and after every
decoder step. -/
theorem update_spin_previous_reading_le (e : Encoder) (A B : Bool) :
    (e.update_spin A B).1.previous_reading ≤ 3 := by
  cases A <;> cases B <;> simp [Encoder.update_spin, digitalRead]

/-- A representable result is stored unchanged by 32-bit arithmetic. -/
theorem int32_of_InInt32 (x : Int) (h : InInt32 x) : int32 x = x := by
  unfold InInt32 at h
  unfold int32
  omega

/-- A representable value is unchanged by the conversion from `double`. -/
theorem doubleToInt32_of_InInt32 (x : Int) (h : InInt32 x) : doubleToInt32 x = x := by
  unfold InInt32 at h
  unfold doubleToInt32
  rw [if_pos h]

/-- When neither `count + resolution` nor `count - resolution` leaves the range of `int`,
the 32-bit decoder step is the step on mathematical integers. -/
theorem update_spin_int32_eq (e : Encoder) (A B : Bool)
    (hup : InInt32 (e.count + e.resolution)) (hdown : InInt32 (e.count - e.resolution)) :
    e.update_spin_int32 A B = e.update_spin A B := by
  have h1 := int32_of_InInt32 _ hup
  have h2 := int32_of_InInt32 _ hdown
  have h3 : int32 (e.count + e.resolution - e.resolution)
      = e.count + e.resolution - e.resolution :=
    int32_of_InInt32 _ (by unfold InInt32 at *; omega)
  unfold Encoder.update_spin_int32 Encoder.update_spin
  simp only [h1]
  split_ifs <;> simp_all

/-- C1, as stated, fails where `count + resolution` overflows: at count 2147483640,
max_count 2147483647, resolution 10 and stored sample 0, the readings A low and B high give
key 2 with `count < max_count`, and the new count is -2147483646, not `count + resolution`. -/
theorem update_spin_decision_table_counterexample :
    (4 * 0 + (2 * digitalRead true + digitalRead false) ∈ [13, 4, 2, 11])
      ∧ (2147483640 : Int) < 2147483647
      ∧ (Encoder.update_spin_int32
          { current_reading := 0, previous_reading := 0, pressed := false,
            count := 2147483640, max_count := 2147483647, resolution := 10 }
          false true).1.count = -2147483646
      ∧ (Encoder.update_spin_int32
          { current_reading := 0, previous_reading := 0, pressed := false,
            count := 2147483640, max_count := 2147483647, resolution := 10 }
          false true).1.count ≠ 2147483640 + 10 := by
  decide

/-- C1, amended: for a selector whose stored previous sample is a two-bit sample and for which
`count + resolution` and `count - resolution` are representable as `int`, and for all line
readings `A`, `B`, `update_spin` forms `sample = 2*B + A` and
`key = 4*previousSample + sample`; the new count is `count + resolution` when the key is one of
13, 4, 2, 11 and `count < max_count`, `count - resolution` when the key is one of 14, 7, 1, 8
and `count ≥ resolution`, and the old count otherwise; the stored previous sample becomes the
new sample in every case, the returned value is the new count, and `resolution`, `max_count`
and `pressed` are unchanged. -/
theorem update_spin_int32_decision_table (e : Encoder) (A B : Bool)
    (hprev : e.previous_reading ≤ 3)
    (hup : InInt32 (e.count + e.resolution)) (hdown : InInt32 (e.count - e.resolution)) :
    let sample := 2 * digitalRead B + digitalRead A
    let key := 4 * e.previous_reading + sample
    let r := e.update_spin_int32 A B
    (key ∈ [13, 4, 2, 11] ∧ e.count < e.max_count → r.1.count = e.count + e.resolution)
      ∧ (key ∈ [14, 7, 1, 8] ∧ e.count ≥ e.resolution → r.1.count = e.count - e.resolution)
      ∧ (¬ (key ∈ [13, 4, 2, 11] ∧ e.count < e.max_count)
          ∧ ¬ (key ∈ [14, 7, 1, 8] ∧ e.count ≥ e.resolution) → r.1.count = e.count)
      ∧ r.1.previous_reading = sample
      ∧ r.2 = r.1.count
      ∧ r.1.resolution = e.resolution ∧ r.1.max_count = e.max_count
      ∧ r.1.pressed = e.pressed := by
  rw [update_spin_int32_eq e A B hup hdown]
  clear hup hdown
  obtain ⟨cr, pr, p, c, m, res⟩ := e
  simp only at hprev
  interval_cases pr <;> cases A <;> cases B <;> simp [Encoder.update_spin, digitalRead] <;>
    constructor <;> intros <;> omega

/-- Witness of C1: the constructed encoder, lines read as A low and B high (key 2):
the count goes from 0 to 1 and the stored sample becomes 2. -/
theorem update_spin_int32_decision_table_witness :
    Encoder.new.previous_reading ≤ 3
      ∧ InInt32 (Encoder.new.count + Encoder.new.resolution)
      ∧ InInt32 (Encoder.new.count - Encoder.new.resolution)
      ∧ (Encoder.new.update_spin_int32 false true).1.count = 1
      ∧ (Encoder.new.update_spin_int32 false true).1.previous_reading = 2 :=
  ⟨by decide, by decide, by decide,
   (update_spin_int32_decision_table Encoder.new false true (by decide) (by decide)
      (by decide)).1 ⟨by decide, by decide⟩,
   (update_spin_int32_decision_table Encoder.new false true (by decide) (by decide)
      (by decide)).2.2.2.1⟩

/-- C2: from a selector that satisfies the data model (`resolution ≥ 1`, `count` and
`max_count` multiples of `resolution`, `0 ≤ count ≤ max_count`), for every stored previous
sample and every new sample, `update_spin` changes `count` by exactly `+resolution`,
`-resolution` or 0 and leaves `0 ≤ count ≤ max_count` with `count` still a multiple of
`resolution`. -/
theorem update_spin_keeps_data_model (e : Encoder) (A B : Bool)
    (hres : 1 ≤ e.resolution) (hcount : e.resolution ∣ e.count)
    (hmax : e.resolution ∣ e.max_count) (hlo : 0 ≤ e.count) (hhi : e.count ≤ e.max_count) :
    let e1 := (e.update_spin A B).1
    (e1.count = e.count + e.resolution ∨ e1.count = e.count - e.resolution
        ∨ e1.count = e.count)
      ∧ 0 ≤ e1.count ∧ e1.count ≤ e1.max_count ∧ e1.resolution ∣ e1.count := by
  obtain ⟨cr, pr, p, c, m, res⟩ := e
  simp only at hres hcount hmax hlo hhi
  have hstep : c < m → c + res ≤ m := by
    intro hlt
    have hd : res ∣ m - c := Int.dvd_sub hmax hcount
    have := Int.le_of_dvd (by omega) hd
    omega
  have hup : res ∣ c + res := Int.dvd_add hcount (Int.dvd_refl res)
  have hdown : res ∣ c - res := Int.dvd_sub hcount (Int.dvd_refl res)
  simp only [Encoder.update_spin]
  generalize (pr * 4 + (digitalRead B * 2 + digitalRead A) % 256) % 256 = sum
  split_ifs with h1 h2 h2
  · omega
  · refine ⟨Or.inl rfl, by omega, hstep h1.2, hup⟩
  · refine ⟨Or.inr (Or.inl rfl), by omega, by omega, hdown⟩
  · exact ⟨Or.inr (Or.inr rfl), hlo, hhi, hcount⟩

/-- Witness of C2: a selector at count 20 of 30 with resolution 10, one forward step. -/
theorem update_spin_keeps_data_model_witness :
    (0 : Int) ≤ 20 ∧ (20 : Int) ≤ 30
      ∧ 0 ≤ (({ current_reading := 0, previous_reading := 0, pressed := false, count := 20,
                max_count := 30, resolution := 10 } : Encoder).update_spin false true).1.count :=
  ⟨by decide, by decide,
   (update_spin_keeps_data_model
      { current_reading := 0, previous_reading := 0, pressed := false, count := 20,
        max_count := 30, resolution := 10 } false true
      (by decide) (by decide) (by decide) (by decide) (by decide)).2.1⟩

/-! ## Frame lemmas of the menu routines -/

/-- The function `screenButton::update` changes nothing of a button but its refresh flag. -/
theorem screenButton.update_fields (b : screenButton) (display : List DrawRequest) :
    (b.update display).1 = { b with refresh := false } := by
  obtain ⟨rad, w, h, ty, refresh, st, txt, x, y⟩ := b
  cases refresh <;> simp [screenButton.update]

/-- The five `update` calls leave the visual state of every button as it was. -/
theorem routerInterface.updateButtons_state (ui : routerInterface) :
    ui.updateButtons.SET.state = ui.SET.state ∧ ui.updateButtons.VIEW.state = ui.VIEW.state
      ∧ ui.updateButtons.RES.state = ui.RES.state ∧ ui.updateButtons.SPEED.state = ui.SPEED.state
      ∧ ui.updateButtons.MES.state = ui.MES.state := by
  simp [routerInterface.updateButtons, screenButton.update_fields]

/-- The five `update` calls leave the text of every button as it was. -/
theorem routerInterface.updateButtons_text (ui : routerInterface) :
    ui.updateButtons.SET.text = ui.SET.text ∧ ui.updateButtons.VIEW.text = ui.VIEW.text
      ∧ ui.updateButtons.RES.text = ui.RES.text ∧ ui.updateButtons.SPEED.text = ui.SPEED.text
      ∧ ui.updateButtons.MES.text = ui.MES.text := by
  simp [routerInterface.updateButtons, screenButton.update_fields]

/-- The five `update` calls leave the menu state as it was. -/
theorem routerInterface.updateButtons_button_state (ui : routerInterface) :
    ui.updateButtons.button_state = ui.button_state := rfl

/-- The function `managePress` clears the press flag in every menu state. -/
theorem routerInterface.managePress_pressed (s : System) :
    (routerInterface.managePress s).myEncoder.pressed = false := rfl

/-- On a tick without a press, the menu state, the selector and both registers are kept. -/
theorem routerInterface.refresh_frame (s : System) (uninit : Int)
    (hp : s.myEncoder.pressed = false) :
    (routerInterface.refresh s uninit).ui.button_state = s.ui.button_state
      ∧ (routerInterface.refresh s uninit).myEncoder = s.myEncoder
      ∧ (routerInterface.refresh s uninit).speed_SP = s.speed_SP
      ∧ (routerInterface.refresh s uninit).maxMotorSpeed = s.maxMotorSpeed := by
  unfold routerInterface.refresh
  simp only [hp, Bool.false_eq_true, if_false, routerInterface.updateButtons_button_state]
  split_ifs
  · unfold routerInterface.manageSet
    simp only []
    split_ifs <;> exact ⟨rfl, rfl, rfl, rfl⟩
  · exact ⟨rfl, rfl, rfl, rfl⟩
  · exact ⟨rfl, rfl, rfl, rfl⟩
  · exact ⟨rfl, rfl, rfl, rfl⟩
  · unfold routerInterface.manageSpin
    simp only []
    split_ifs <;> exact ⟨rfl, rfl, rfl, rfl⟩

/-- Every tick leaves the press flag cleared. -/
theorem routerInterface.refresh_pressed (s : System) (uninit : Int) :
    (routerInterface.refresh s uninit).myEncoder.pressed = false := by
  cases hp : s.myEncoder.pressed
  · rw [(routerInterface.refresh_frame s uninit hp).2.1, hp]
  · unfold routerInterface.refresh
    simp only [hp, if_true]
    exact routerInterface.managePress_pressed _

/-! ## The hovered options in reachable states -/

/-- The hover invariant holds at startup. -/
theorem HoverInv_startup : HoverInv startup := by
  constructor <;> decide

/-- A press handled in a state with the hover invariant leads to one with it. -/
theorem HoverInv_managePress (s : System) (h : HoverInv s) :
    HoverInv (routerInterface.managePress s) := by
  obtain ⟨h1, h34⟩ := h
  unfold routerInterface.managePress
  simp only []
  split_ifs <;>
    simp_all [HoverInv, screenButton.setState, HOVER, PRESSED, UNPRESSED, OFF]

/-- A tick in a state with the hover invariant leads to one with it. -/
theorem HoverInv_refresh (s : System) (uninit : Int) (h : HoverInv s) :
    HoverInv (routerInterface.refresh s uninit) := by
  have hu : HoverInv { s with ui := s.ui.updateButtons } := by
    obtain ⟨hV, hR, -⟩ :
        s.ui.updateButtons.VIEW.state = s.ui.VIEW.state
          ∧ s.ui.updateButtons.RES.state = s.ui.RES.state ∧ True :=
      ⟨(routerInterface.updateButtons_state s.ui).2.1,
       (routerInterface.updateButtons_state s.ui).2.2.1, trivial⟩
    simpa [HoverInv, hV, hR, routerInterface.updateButtons_button_state] using h
  unfold routerInterface.refresh
  simp only []
  split_ifs with hp b1 b2 b3 b4
  · exact HoverInv_managePress _ hu
  · obtain ⟨h1, h34⟩ := hu
    unfold routerInterface.manageSet
    simp only []
    split_ifs <;>
      simp_all [HoverInv, screenButton.setState, HOVER, PRESSED, UNPRESSED, OFF]
  · obtain ⟨h1, h34⟩ := hu
    simp_all [HoverInv, routerInterface.manageView]
  · obtain ⟨h1, h34⟩ := hu
    simp_all [HoverInv, routerInterface.manageRes]
  · obtain ⟨h1, h34⟩ := hu
    simp_all [HoverInv, routerInterface.manageSpeed]
  · obtain ⟨h1, h34⟩ := hu
    unfold routerInterface.manageSpin
    simp only []
    split_ifs <;>
      simp_all [HoverInv, screenButton.setState, HOVER, PRESSED, UNPRESSED, OFF]

/-- Every event keeps the hover invariant. -/
theorem HoverInv_step (s : System) (ev : Event) (h : HoverInv s) : HoverInv (step s ev) := by
  cases ev with
  | spin A B => exact h
  | press pin => exact h
  | tick uninit => exact HoverInv_refresh s uninit h
  | motorSample speed => exact h

/-- Every event sequence keeps the hover invariant. -/
theorem HoverInv_run (events : List Event) (s : System) (h : HoverInv s) :
    HoverInv (run s events) := by
  induction events generalizing s with
  | nil => exact h
  | cons ev rest ih => exact ih (step s ev) (HoverInv_step s ev h)

/-- The hover invariant holds in every reachable state. -/
theorem HoverInv_of_Reachable (s : System) (h : Reachable s) : HoverInv s := by
  obtain ⟨events, rfl⟩ := h
  exact HoverInv_run events startup HoverInv_startup

/-! ## The arithmetic of the resolution position -/

/-- The integer decimal logarithm of a power of ten is its exponent. -/
theorem floorLog10_pow (k : Nat) : ∀ fuel : Nat, 10 ^ k ≤ fuel → floorLog10 fuel (10 ^ k) = k := by
  induction k with
  | zero =>
    intro fuel h
    cases fuel with
    | zero => simp at h
    | succ f => simp [floorLog10]
  | succ k ih =>
    intro fuel h
    cases fuel with
    | zero => simp at h
    | succ f =>
      have hpos : 0 < 10 ^ k := Nat.pow_pos (by decide)
      have hge : ¬ (10 ^ (k + 1) < 10) := by
        rw [pow_succ]
        omega
      have hdiv : 10 ^ (k + 1) / 10 = 10 ^ k := by
        rw [pow_succ]
        exact Nat.mul_div_cancel _ (by decide)
      have hf : 10 ^ k ≤ f := by
        rw [pow_succ] at h
        omega
      simp only [floorLog10, hge, if_false, hdiv]
      rw [ih f hf]

/-- The selector position `log10(resolution)*resolution` at the four resolutions. -/
theorem log10_times_values :
    log10_times 1 = 0 ∧ log10_times 10 = 10 ∧ log10_times 100 = 200
      ∧ log10_times 1000 = 3000 := by
  have e1 : (1 : Nat) ^ 1 = 10 ^ 0 := by norm_num
  have e2 : (10 : Nat) ^ 10 = 10 ^ 10 := rfl
  have e3 : (100 : Nat) ^ 100 = 10 ^ 200 := by norm_num
  have e4 : (1000 : Nat) ^ 1000 = 10 ^ 3000 := by norm_num
  refine ⟨?_, ?_, ?_, ?_⟩
  · simp only [log10_times, le_refl, if_true, Int.toNat_one, e1]
    rw [floorLog10_pow 0 _ (le_refl _)]
    rfl
  · have : (10 : Int).toNat = 10 := rfl
    simp only [log10_times, this, show (1 : Int) ≤ 10 by decide, if_true]
    rw [floorLog10_pow 10 _ (le_refl _)]
    rfl
  · have : (100 : Int).toNat = 100 := rfl
    simp only [log10_times, this, show (1 : Int) ≤ 100 by decide, if_true, e3]
    rw [floorLog10_pow 200 _ (le_refl _)]
    rfl
  · have : (1000 : Int).toNat = 1000 := rfl
    simp only [log10_times, this, show (1 : Int) ≤ 1000 by decide, if_true, e4]
    rw [floorLog10_pow 3000 _ (le_refl _)]
    rfl

/-! ## The menu state machine -/

/-- C4: for every menu state and selector, `refresh` keeps `button_state`, `count`,
`max_count`, `resolution` and the setpoint register when `pressed` is false on entry (so the
menu state changes only on a press); `pressed` is false on return in every menu state, also
when no transition is taken; and a second `refresh` without a new press event keeps the menu
state. -/
theorem refresh_press_is_consumed_once (s : System) (uninit uninit2 : Int) :
    (s.myEncoder.pressed = false →
        (routerInterface.refresh s uninit).ui.button_state = s.ui.button_state
        ∧ (routerInterface.refresh s uninit).myEncoder.count = s.myEncoder.count
        ∧ (routerInterface.refresh s uninit).myEncoder.max_count = s.myEncoder.max_count
        ∧ (routerInterface.refresh s uninit).myEncoder.resolution = s.myEncoder.resolution
        ∧ (routerInterface.refresh s uninit).speed_SP = s.speed_SP)
      ∧ ((routerInterface.refresh s uninit).ui.button_state ≠ s.ui.button_state →
          s.myEncoder.pressed = true)
      ∧ (routerInterface.refresh s uninit).myEncoder.pressed = false
      ∧ (routerInterface.refresh (routerInterface.refresh s uninit) uninit2).ui.button_state
          = (routerInterface.refresh s uninit).ui.button_state := by
  refine ⟨?_, ?_, routerInterface.refresh_pressed s uninit, ?_⟩
  · intro hp
    obtain ⟨h1, h2, h3, _⟩ := routerInterface.refresh_frame s uninit hp
    rw [h1, h2, h3]
    exact ⟨rfl, rfl, rfl, rfl, rfl⟩
  · intro hne
    cases hp : s.myEncoder.pressed
    · exact absurd (routerInterface.refresh_frame s uninit hp).1 hne
    · rfl
  · exact (routerInterface.refresh_frame _ uninit2 (routerInterface.refresh_pressed s uninit)).1

/-- C5: in Neutral (`button_state = 0`), `managePress` with SET hovered moves the menu to
SetMenu (`button_state = 1`) and sets `max_count = 3 * resolution`; with VIEW hovered instead
it moves to ViewMode (`button_state = 2`); in both cases `count` and `resolution` are
unchanged; with neither hovered the menu stays in Neutral and the selector keeps its `count`,
`max_count` and `resolution` (the press flag is cleared, as in every menu state). -/
theorem managePress_neutral (s : System) (h0 : s.ui.button_state = 0) :
    (s.ui.SET.state = some HOVER →
        (routerInterface.managePress s).ui.button_state = 1
        ∧ (routerInterface.managePress s).myEncoder.max_count = 3 * s.myEncoder.resolution
        ∧ (routerInterface.managePress s).myEncoder.count = s.myEncoder.count
        ∧ (routerInterface.managePress s).myEncoder.resolution = s.myEncoder.resolution)
      ∧ (s.ui.SET.state ≠ some HOVER → s.ui.VIEW.state = some HOVER →
        (routerInterface.managePress s).ui.button_state = 2
        ∧ (routerInterface.managePress s).myEncoder.count = s.myEncoder.count
        ∧ (routerInterface.managePress s).myEncoder.resolution = s.myEncoder.resolution)
      ∧ (s.ui.SET.state ≠ some HOVER → s.ui.VIEW.state ≠ some HOVER →
        (routerInterface.managePress s).ui.button_state = 0
        ∧ (routerInterface.managePress s).myEncoder = { s.myEncoder with pressed := false }
        ∧ (routerInterface.managePress s).ui = s.ui) := by
  refine ⟨?_, ?_, ?_⟩
  · intro hset
    simp [routerInterface.managePress, h0, hset]
  · intro hset hview
    simp [routerInterface.managePress, h0, hset, hview]
  · intro hset hview
    simp [routerInterface.managePress, h0, hset, hview]

/-- Witness of C5: the startup state, where the menu is in Neutral and SET is hovered; a press
moves the menu to SetMenu with `max_count = 3`. -/
theorem managePress_neutral_witness :
    startup.ui.button_state = 0
      ∧ (routerInterface.managePress startup).ui.button_state = 1
      ∧ (routerInterface.managePress startup).myEncoder.max_count = 3 * 1 :=
  ⟨rfl, ((managePress_neutral startup rfl).1 (by decide)).1,
   ((managePress_neutral startup rfl).1 (by decide)).2.1⟩

/-- The RES branch of the SetMenu press handler: taken when RES is hovered and VIEW, which is
tested first, is not. -/
theorem managePress_SetMenu_RES (s : System) (h1 : s.ui.button_state = 1)
    (hV : s.ui.VIEW.state ≠ some HOVER) (hR : s.ui.RES.state = some HOVER) :
    (routerInterface.managePress s).ui.button_state = 3
      ∧ (routerInterface.managePress s).myEncoder.count = log10_times s.myEncoder.resolution
      ∧ (routerInterface.managePress s).myEncoder.max_count = 3 * s.myEncoder.resolution
      ∧ (routerInterface.managePress s).myEncoder.resolution = s.myEncoder.resolution
      ∧ (routerInterface.managePress s).ui.VIEW.state = s.ui.VIEW.state := by
  simp [routerInterface.managePress, h1, hV, hR]

/-- The EditingResolution branch of the press handler. -/
theorem managePress_EditingResolution (s : System) (h3 : s.ui.button_state = 3) :
    (routerInterface.managePress s).ui.button_state = 1
      ∧ (routerInterface.managePress s).ui.RES.state = some HOVER
      ∧ (routerInterface.managePress s).myEncoder.resolution
          = pow10 (Int.tdiv s.myEncoder.count s.myEncoder.resolution)
      ∧ (routerInterface.managePress s).myEncoder.count
          = 2 * pow10 (Int.tdiv s.myEncoder.count s.myEncoder.resolution)
      ∧ (routerInterface.managePress s).myEncoder.max_count
          = 3 * pow10 (Int.tdiv s.myEncoder.count s.myEncoder.resolution) := by
  simp [routerInterface.managePress, h3, screenButton.setState]

/-- In a reachable state in SetMenu with RES hovered, VIEW is not hovered. -/
theorem VIEW_not_hovered_of_RES_hovered (s : System) (hs : Reachable s)
    (h1 : s.ui.button_state = 1) (hR : s.ui.RES.state = some HOVER) :
    s.ui.VIEW.state ≠ some HOVER :=
  fun hV => (HoverInv_of_Reachable s hs).1 h1 ⟨hV, hR⟩

/-- The decimal logarithms of the four resolutions. -/
theorem Nat_log_ten_values :
    Nat.log 10 1 = 0 ∧ Nat.log 10 10 = 1 ∧ Nat.log 10 100 = 2 ∧ Nat.log 10 1000 = 3 := by
  refine ⟨?_, ?_, ?_, ?_⟩
  · simp
  · exact Nat.log_pow (by decide) 1
  · exact Nat.log_pow (by decide) 2
  · exact Nat.log_pow (by decide) 3

/-- C7: in every state of the running program in SetMenu with RES hovered, for every
resolution in 1, 10, 100, 1000, a press moves the menu to EditingResolution
(`button_state = 3`) with `count = log10(resolution) * resolution` (0, 10, 200, 3000
respectively) and `max_count = 3 * resolution`, and leaves `resolution` unchanged. -/
theorem managePress_enters_EditingResolution (s : System) (hs : Reachable s)
    (h1 : s.ui.button_state = 1) (hR : s.ui.RES.state = some HOVER)
    (hr : s.myEncoder.resolution = 1 ∨ s.myEncoder.resolution = 10
        ∨ s.myEncoder.resolution = 100 ∨ s.myEncoder.resolution = 1000) :
    (routerInterface.managePress s).ui.button_state = 3
      ∧ (routerInterface.managePress s).myEncoder.count
          = (Nat.log 10 s.myEncoder.resolution.toNat : Int) * s.myEncoder.resolution
      ∧ (s.myEncoder.resolution = 1 → (routerInterface.managePress s).myEncoder.count = 0)
      ∧ (s.myEncoder.resolution = 10 → (routerInterface.managePress s).myEncoder.count = 10)
      ∧ (s.myEncoder.resolution = 100 → (routerInterface.managePress s).myEncoder.count = 200)
      ∧ (s.myEncoder.resolution = 1000 → (routerInterface.managePress s).myEncoder.count = 3000)
      ∧ (routerInterface.managePress s).myEncoder.max_count = 3 * s.myEncoder.resolution
      ∧ (routerInterface.managePress s).myEncoder.resolution = s.myEncoder.resolution := by
  obtain ⟨hb, hc, hm, hres, -⟩ :=
    managePress_SetMenu_RES s h1 (VIEW_not_hovered_of_RES_hovered s hs h1 hR) hR
  obtain ⟨l1, l10, l100, l1000⟩ := log10_times_values
  obtain ⟨n1, n10, n100, n1000⟩ := Nat_log_ten_values
  have t10 : (10 : Int).toNat = 10 := rfl
  have t100 : (100 : Int).toNat = 100 := rfl
  have t1000 : (1000 : Int).toNat = 1000 := rfl
  refine ⟨hb, ?_, ?_, ?_, ?_, ?_, hm, hres⟩
  · rcases hr with h | h | h | h <;> rw [hc, h]
    · rw [l1, Int.toNat_one, n1]; rfl
    · rw [l10, t10, n10]; rfl
    · rw [l100, t100, n100]; rfl
    · rw [l1000, t1000, n1000]; rfl
  · intro h; rw [hc, h, l1]
  · intro h; rw [hc, h, l10]
  · intro h; rw [hc, h, l100]
  · intro h; rw [hc, h, l1000]

/-- Witness of C7: SetMenu as entered from startup, the knob turned two steps with a tick after
each, so that RES is hovered at resolution 1: the press enters EditingResolution. -/
theorem managePress_enters_EditingResolution_witness :
    Reachable (run startup (pressAndTick ++ turnWithTicks 0 2))
      ∧ (run startup (pressAndTick ++ turnWithTicks 0 2)).ui.RES.state = some HOVER
      ∧ (routerInterface.managePress
          (run startup (pressAndTick ++ turnWithTicks 0 2))).ui.button_state = 3 :=
  ⟨⟨_, rfl⟩, by decide,
   (managePress_enters_EditingResolution (run startup (pressAndTick ++ turnWithTicks 0 2))
      ⟨_, rfl⟩ (by decide) (by decide) (Or.inl (by decide))).1⟩

/-- A press in EditingResolution in 32-bit arithmetic: the fields it leaves behind. -/
theorem managePress_int32_EditingResolution (s : System) (h3 : s.ui.button_state = 3) :
    (routerInterface.managePress_int32 s).ui.button_state = 1
      ∧ (routerInterface.managePress_int32 s).ui.RES.state = some HOVER
      ∧ (routerInterface.managePress_int32 s).myEncoder.resolution
          = doubleToInt32 (pow10 (Int.tdiv s.myEncoder.count s.myEncoder.resolution))
      ∧ (routerInterface.managePress_int32 s).myEncoder.count
          = int32 (2 * doubleToInt32 (pow10 (Int.tdiv s.myEncoder.count s.myEncoder.resolution)))
      ∧ (routerInterface.managePress_int32 s).myEncoder.max_count
          = int32 (3 * doubleToInt32 (pow10 (Int.tdiv s.myEncoder.count s.myEncoder.resolution)))
    := by
  simp [routerInterface.managePress_int32, h3, screenButton.setState]

/-- The power `pow10 k` is never negative. -/
theorem pow10_nonneg (k : Int) : 0 ≤ pow10 k := by
  unfold pow10
  split_ifs
  · positivity
  · exact le_refl 0

/-- When `3 * resolution`, the product `log10(resolution)*resolution` and three times the power
`10 ^ (count / resolution)` are representable as `int`, the 32-bit press routine is the press
routine on mathematical integers. -/
theorem managePress_int32_eq (s : System)
    (h3 : InInt32 (3 * s.myEncoder.resolution))
    (hlog : InInt32 (log10_times s.myEncoder.resolution))
    (hpow : InInt32 (3 * pow10 (Int.tdiv s.myEncoder.count s.myEncoder.resolution))) :
    routerInterface.managePress_int32 s = routerInterface.managePress s := by
  have hp0 := pow10_nonneg (Int.tdiv s.myEncoder.count s.myEncoder.resolution)
  have e1 := int32_of_InInt32 _ h3
  have e2 := doubleToInt32_of_InInt32 _ hlog
  have e3 : doubleToInt32 (pow10 (Int.tdiv s.myEncoder.count s.myEncoder.resolution))
      = pow10 (Int.tdiv s.myEncoder.count s.myEncoder.resolution) :=
    doubleToInt32_of_InInt32 _ (by unfold InInt32 at *; omega)
  have e4 : int32 (2 * pow10 (Int.tdiv s.myEncoder.count s.myEncoder.resolution))
      = 2 * pow10 (Int.tdiv s.myEncoder.count s.myEncoder.resolution) :=
    int32_of_InInt32 _ (by unfold InInt32 at *; omega)
  have e5 := int32_of_InInt32 _ hpow
  unfold routerInterface.managePress_int32 routerInterface.managePress
  simp only [e1, e2, e3, e4, e5]

/-- C8, as stated, fails from `count div r = 9` on. In EditingResolution at old resolution 1,
count 9 commits resolution 1000000000 and count 2000000000, but `3 * 1000000000` overflows and
max_count becomes -1294967296; count 10 commits resolution -2147483648 (the power `10 ^ 10` is
not representable), count 0 and max_count -2147483648. -/
theorem managePress_commits_resolution_counterexample :
    (routerInterface.managePress_int32
        { startup with
          ui := { startup.ui with button_state := 3 },
          myEncoder := { startup.myEncoder with count := 9, max_count := 3 } }
        ).myEncoder.resolution = 1000000000
      ∧ (routerInterface.managePress_int32
        { startup with
          ui := { startup.ui with button_state := 3 },
          myEncoder := { startup.myEncoder with count := 9, max_count := 3 } }
        ).myEncoder.max_count = -1294967296
      ∧ (routerInterface.managePress_int32
        { startup with
          ui := { startup.ui with button_state := 3 },
          myEncoder := { startup.myEncoder with count := 9, max_count := 3 } }
        ).myEncoder.max_count
          ≠ 3 * (routerInterface.managePress_int32
            { startup with
              ui := { startup.ui with button_state := 3 },
              myEncoder := { startup.myEncoder with count := 9, max_count := 3 } }
            ).myEncoder.resolution
      ∧ (routerInterface.managePress_int32
        { startup with
          ui := { startup.ui with button_state := 3 },
          myEncoder := { startup.myEncoder with count := 10, max_count := 3 } }
        ).myEncoder.resolution = -2147483648
      ∧ (routerInterface.managePress_int32
        { startup with
          ui := { startup.ui with button_state := 3 },
          myEncoder := { startup.myEncoder with count := 10, max_count := 3 } }
        ).myEncoder.resolution ≠ 10 ^ 10
      ∧ (routerInterface.managePress_int32
        { startup with
          ui := { startup.ui with button_state := 3 },
          myEncoder := { startup.myEncoder with count := 10, max_count := 3 } }
        ).myEncoder.count = 0
      ∧ (routerInterface.managePress_int32
        { startup with
          ui := { startup.ui with button_state := 3 },
          myEncoder := { startup.myEncoder with count := 10, max_count := 3 } }
        ).myEncoder.max_count = -2147483648 := by
  decide

/-- C8, amended: for every old resolution `r ≥ 1` and every `count ≥ 0` with `count / r ≤ 8`, a
press in EditingResolution commits `resolution := 10 ^ (count / r)` (integer division by the old
resolution), returns the menu to SetMenu (`button_state = 1`) with RES hovered, and repositions
the selector to `count = 2 * newResolution` and `max_count = 3 * newResolution`; in particular
`count = 1` with `r = 1` yields resolution 10. -/
theorem managePress_int32_commits_resolution (s : System) (h3 : s.ui.button_state = 3)
    (hres : 1 ≤ s.myEncoder.resolution) (hcount : 0 ≤ s.myEncoder.count)
    (hfit : s.myEncoder.count / s.myEncoder.resolution ≤ 8) :
    (routerInterface.managePress_int32 s).myEncoder.resolution
        = 10 ^ (s.myEncoder.count / s.myEncoder.resolution).toNat
      ∧ (routerInterface.managePress_int32 s).ui.button_state = 1
      ∧ (routerInterface.managePress_int32 s).ui.RES.state = some HOVER
      ∧ (routerInterface.managePress_int32 s).myEncoder.count
          = 2 * (routerInterface.managePress_int32 s).myEncoder.resolution
      ∧ (routerInterface.managePress_int32 s).myEncoder.max_count
          = 3 * (routerInterface.managePress_int32 s).myEncoder.resolution
      ∧ (s.myEncoder.count = 1 → s.myEncoder.resolution = 1 →
          (routerInterface.managePress_int32 s).myEncoder.resolution = 10) := by
  obtain ⟨hb, hR, hr, hc, hm⟩ := managePress_int32_EditingResolution s h3
  have hdiv : Int.tdiv s.myEncoder.count s.myEncoder.resolution
      = s.myEncoder.count / s.myEncoder.resolution :=
    Int.tdiv_eq_ediv hcount (by omega)
  have hq : 0 ≤ s.myEncoder.count / s.myEncoder.resolution :=
    Int.ediv_nonneg hcount (by omega)
  have hp : pow10 (Int.tdiv s.myEncoder.count s.myEncoder.resolution)
      = 10 ^ (s.myEncoder.count / s.myEncoder.resolution).toNat := by
    rw [hdiv, pow10, if_pos hq]
  rw [hp] at hr hc hm
  have hk : (s.myEncoder.count / s.myEncoder.resolution).toNat ≤ 8 := by omega
  have hfacts : doubleToInt32 (10 ^ (s.myEncoder.count / s.myEncoder.resolution).toNat)
        = 10 ^ (s.myEncoder.count / s.myEncoder.resolution).toNat
      ∧ int32 (2 * 10 ^ (s.myEncoder.count / s.myEncoder.resolution).toNat)
        = 2 * 10 ^ (s.myEncoder.count / s.myEncoder.resolution).toNat
      ∧ int32 (3 * 10 ^ (s.myEncoder.count / s.myEncoder.resolution).toNat)
        = 3 * 10 ^ (s.myEncoder.count / s.myEncoder.resolution).toNat := by
    generalize (s.myEncoder.count / s.myEncoder.resolution).toNat = k at hk
    interval_cases k <;> decide
  obtain ⟨f1, f2, f3⟩ := hfacts
  rw [f1] at hr hc hm
  rw [f2] at hc
  rw [f3] at hm
  refine ⟨hr, hb, hR, by rw [hc, hr], by rw [hm, hr], ?_⟩
  intro c1 r1
  rw [hr, c1, r1]
  rfl

/-- Witness of C8: EditingResolution at old resolution 1 with the selector at count 1: the press
commits resolution 10. -/
theorem managePress_int32_commits_resolution_witness :
    (1 : Int) ≤ 1 ∧ (0 : Int) ≤ 1 ∧ (1 : Int) / 1 ≤ 8
      ∧ (routerInterface.managePress_int32
          { startup with
            ui := { startup.ui with button_state := 3 },
            myEncoder := { startup.myEncoder with count := 1, max_count := 3 } }
          ).myEncoder.resolution = 10 :=
  ⟨by decide, by decide, by decide,
   (managePress_int32_commits_resolution
      { startup with
        ui := { startup.ui with button_state := 3 },
        myEncoder := { startup.myEncoder with count := 1, max_count := 3 } }
      rfl (by decide) (by decide) (by decide)).1⟩

/-- C9: for every resolution `r ≥ 1` and every `k` in 0, 1, 2, 3, in EditingResolution with
`count = k * r` the routine of a tick without a press is `manageRes`, which sets the RES text
to the label of `10 ^ k` ("RES.....1", "RES....10", "RES...100", "RES..1000") and changes
nothing of the selector, and a press from the same selector position commits
`resolution = 10 ^ k`: the previewed and the committed value agree. -/
theorem manageRes_preview_is_committed (s : System) (uninit : Int) (k : Nat) (hk : k ≤ 3)
    (h3 : s.ui.button_state = 3) (hres : 1 ≤ s.myEncoder.resolution)
    (hcount : s.myEncoder.count = k * s.myEncoder.resolution) :
    (s.myEncoder.pressed = false →
        routerInterface.refresh s uninit
          = routerInterface.manageRes { s with ui := s.ui.updateButtons })
      ∧ (routerInterface.manageRes s).ui.RES.text
          = ["RES.....1", "RES....10", "RES...100", "RES..1000"].getD k ""
      ∧ (routerInterface.manageRes s).myEncoder = s.myEncoder
      ∧ (routerInterface.managePress s).myEncoder.resolution = 10 ^ k := by
  have h0 : s.myEncoder.resolution ≠ 0 := by omega
  refine ⟨?_, ?_, rfl, ?_⟩
  · intro hp
    simp [routerInterface.refresh, hp, h3, routerInterface.updateButtons_button_state]
  · have e2 : (2 : Int) * s.myEncoder.resolution ≠ s.myEncoder.resolution := by omega
    have e3 : (3 : Int) * s.myEncoder.resolution ≠ s.myEncoder.resolution := by omega
    have e32 : (3 : Int) * s.myEncoder.resolution ≠ 2 * s.myEncoder.resolution := by omega
    interval_cases k <;>
      simp [routerInterface.manageRes, hcount, h0, e2, e3, e32]
  · rw [(managePress_EditingResolution s h3).2.2.1, hcount, Int.mul_tdiv_cancel _ h0, pow10,
      if_pos (Int.ofNat_nonneg k), Int.toNat_ofNat]

/-- Witness of C9: EditingResolution at resolution 10 with the selector at `2 * 10`: the preview
names 100 and the press commits 100. -/
theorem manageRes_preview_is_committed_witness :
    (routerInterface.manageRes
        { startup with
          ui := { startup.ui with button_state := 3 },
          myEncoder := { startup.myEncoder with count := 20, max_count := 30, resolution := 10 } }
        ).ui.RES.text = "RES...100"
      ∧ (routerInterface.managePress
        { startup with
          ui := { startup.ui with button_state := 3 },
          myEncoder := { startup.myEncoder with count := 20, max_count := 30, resolution := 10 } }
        ).myEncoder.resolution = 10 ^ 2 :=
  ⟨(manageRes_preview_is_committed
      { startup with
        ui := { startup.ui with button_state := 3 },
        myEncoder := { startup.myEncoder with count := 20, max_count := 30, resolution := 10 } }
      0 2 (by decide) rfl (by decide) (by decide)).2.1,
   (manageRes_preview_is_committed
      { startup with
        ui := { startup.ui with button_state := 3 },
        myEncoder := { startup.myEncoder with count := 20, max_count := 30, resolution := 10 } }
      0 2 (by decide) rfl (by decide) (by decide)).2.2.2⟩

/-- C10: resolution re-entry round trip. For every resolution `r` in 1, 10, 100, 1000, in every
state of the running program in SetMenu with RES hovered, a press enters EditingResolution and
a second press with no rotation in between commits the same resolution `r`, that is
`10 ^ ((log10(r) * r) / r) = r`; and the selector position chosen on entry is the one whose
preview text names `r`. -/
theorem resolution_reentry_round_trip (s : System) (hs : Reachable s)
    (h1 : s.ui.button_state = 1) (hR : s.ui.RES.state = some HOVER)
    (hr : s.myEncoder.resolution = 1 ∨ s.myEncoder.resolution = 10
        ∨ s.myEncoder.resolution = 100 ∨ s.myEncoder.resolution = 1000) :
    (routerInterface.managePress s).ui.button_state = 3
      ∧ (routerInterface.managePress (routerInterface.managePress s)).myEncoder.resolution
          = s.myEncoder.resolution
      ∧ (routerInterface.managePress (routerInterface.managePress s)).ui.button_state = 1
      ∧ (10 : Int) ^ ((Nat.log 10 s.myEncoder.resolution.toNat : Int) * s.myEncoder.resolution
            / s.myEncoder.resolution).toNat = s.myEncoder.resolution
      ∧ (s.myEncoder.resolution = 1 →
          (routerInterface.manageRes (routerInterface.managePress s)).ui.RES.text = "RES.....1")
      ∧ (s.myEncoder.resolution = 10 →
          (routerInterface.manageRes (routerInterface.managePress s)).ui.RES.text = "RES....10")
      ∧ (s.myEncoder.resolution = 100 →
          (routerInterface.manageRes (routerInterface.managePress s)).ui.RES.text = "RES...100")
      ∧ (s.myEncoder.resolution = 1000 →
          (routerInterface.manageRes (routerInterface.managePress s)).ui.RES.text
            = "RES..1000") := by
  obtain ⟨hb, hc, -, hres, -⟩ :=
    managePress_SetMenu_RES s h1 (VIEW_not_hovered_of_RES_hovered s hs h1 hR) hR
  obtain ⟨l1, l10, l100, l1000⟩ := log10_times_values
  obtain ⟨n1, n10, n100, n1000⟩ := Nat_log_ten_values
  have t10 : (10 : Int).toNat = 10 := rfl
  have t100 : (100 : Int).toNat = 100 := rfl
  have t1000 : (1000 : Int).toNat = 1000 := rfl
  obtain ⟨hb2, -, hr2, -, -⟩ := managePress_EditingResolution _ hb
  rw [hc, hres] at hr2
  refine ⟨hb, ?_, hb2, ?_, ?_, ?_, ?_, ?_⟩
  · rw [hr2]
    rcases hr with h | h | h | h <;> rw [h]
    · rw [l1]; rfl
    · rw [l10]; rfl
    · rw [l100]; rfl
    · rw [l1000]; rfl
  · rcases hr with h | h | h | h <;> rw [h]
    · rw [Int.toNat_one, n1]; rfl
    · rw [t10, n10]; rfl
    · rw [t100, n100]; rfl
    · rw [t1000, n1000]; rfl
  · intro h
    simp [routerInterface.manageRes, hc, hres, h, l1]
  · intro h
    simp [routerInterface.manageRes, hc, hres, h, l10]
  · intro h
    simp [routerInterface.manageRes, hc, hres, h, l100]
  · intro h
    simp [routerInterface.manageRes, hc, hres, h, l1000]

/-- Witness of C10: SetMenu as entered from startup with RES hovered at resolution 1: two
presses in a row leave the resolution at 1. -/
theorem resolution_reentry_round_trip_witness :
    Reachable (run startup (pressAndTick ++ turnWithTicks 0 2))
      ∧ (routerInterface.managePress (routerInterface.managePress
          (run startup (pressAndTick ++ turnWithTicks 0 2)))).myEncoder.resolution
          = (run startup (pressAndTick ++ turnWithTicks 0 2)).myEncoder.resolution :=
  ⟨⟨_, rfl⟩,
   (resolution_reentry_round_trip (run startup (pressAndTick ++ turnWithTicks 0 2))
      ⟨_, rfl⟩ (by decide) (by decide) (Or.inl (by decide))).2.1⟩

/-! ## The selector bound in the running program -/

set_option maxRecDepth 100000 in
/-- C3 (the code at two failing inputs). First: enter SetMenu, turn two steps and press before
the next menu tick; the press is handled with no option hovered, the menu returns to Neutral
with `max_count = resolution = 1` and the count stays 2. Second, with a menu tick after every
event: set the resolution to 10, enter EditingSpeed (`max_count = 325`) and turn 33 steps;
the step taken at count 320 passes the guard `count < max_count` and leaves the count at 330.
Both states are reachable from startup and break `count ≤ max_count`. -/
theorem count_above_max_count_reachable :
    (Reachable (run startup (pressAndTick ++ [forwardTurn 0, forwardTurn 1] ++ pressAndTick))
      ∧ (run startup (pressAndTick ++ [forwardTurn 0, forwardTurn 1]
            ++ pressAndTick)).ui.button_state = 0
      ∧ (run startup (pressAndTick ++ [forwardTurn 0, forwardTurn 1]
            ++ pressAndTick)).myEncoder.count = 2
      ∧ (run startup (pressAndTick ++ [forwardTurn 0, forwardTurn 1]
            ++ pressAndTick)).myEncoder.max_count = 1
      ∧ ¬ ((run startup (pressAndTick ++ [forwardTurn 0, forwardTurn 1]
              ++ pressAndTick)).myEncoder.count
            ≤ (run startup (pressAndTick ++ [forwardTurn 0, forwardTurn 1]
              ++ pressAndTick)).myEncoder.max_count))
    ∧ (Reachable (run startup (pressAndTick ++ turnWithTicks 0 2 ++ pressAndTick
            ++ turnWithTicks 2 1 ++ pressAndTick ++ turnWithTicks 3 1 ++ pressAndTick
            ++ turnWithTicks 0 33))
      ∧ (run startup (pressAndTick ++ turnWithTicks 0 2 ++ pressAndTick
            ++ turnWithTicks 2 1 ++ pressAndTick ++ turnWithTicks 3 1 ++ pressAndTick
            ++ turnWithTicks 0 33)).ui.button_state = 4
      ∧ (run startup (pressAndTick ++ turnWithTicks 0 2 ++ pressAndTick
            ++ turnWithTicks 2 1 ++ pressAndTick ++ turnWithTicks 3 1 ++ pressAndTick
            ++ turnWithTicks 0 33)).myEncoder.count = 330
      ∧ (run startup (pressAndTick ++ turnWithTicks 0 2 ++ pressAndTick
            ++ turnWithTicks 2 1 ++ pressAndTick ++ turnWithTicks 3 1 ++ pressAndTick
            ++ turnWithTicks 0 33)).myEncoder.max_count = 325
      ∧ ¬ ((run startup (pressAndTick ++ turnWithTicks 0 2 ++ pressAndTick
              ++ turnWithTicks 2 1 ++ pressAndTick ++ turnWithTicks 3 1 ++ pressAndTick
              ++ turnWithTicks 0 33)).myEncoder.count
            ≤ (run startup (pressAndTick ++ turnWithTicks 0 2 ++ pressAndTick
              ++ turnWithTicks 2 1 ++ pressAndTick ++ turnWithTicks 3 1 ++ pressAndTick
              ++ turnWithTicks 0 33)).myEncoder.max_count)) := by
  refine ⟨⟨⟨_, rfl⟩, ?_, ?_, ?_, ?_⟩, ⟨⟨_, rfl⟩, ?_, ?_, ?_, ?_⟩⟩ <;> decide

/-! ## Editing the speed, leaving SetMenu and ViewMode -/

/-- C11: a press in SetMenu with SPEED hovered and neither VIEW nor RES hovered moves the menu
to EditingSpeed (`button_state = 4`) and primes the selector from the channels: `count` becomes
the value of the setpoint register, `max_count` the value of the max-speed register;
`resolution` and both registers are unchanged. -/
theorem managePress_enters_EditingSpeed (s : System) (h1 : s.ui.button_state = 1)
    (hV : s.ui.VIEW.state ≠ some HOVER) (hR : s.ui.RES.state ≠ some HOVER)
    (hS : s.ui.SPEED.state = some HOVER) :
    (routerInterface.managePress s).ui.button_state = 4
      ∧ (routerInterface.managePress s).myEncoder.count = s.speed_SP
      ∧ (routerInterface.managePress s).myEncoder.max_count = s.maxMotorSpeed
      ∧ (routerInterface.managePress s).myEncoder.resolution = s.myEncoder.resolution
      ∧ (routerInterface.managePress s).speed_SP = s.speed_SP
      ∧ (routerInterface.managePress s).maxMotorSpeed = s.maxMotorSpeed := by
  simp [routerInterface.managePress, h1, hV, hR, hS]

/-- Witness of C11: SetMenu as entered from startup, the knob turned three steps with a tick
after each, so that SPEED is hovered: the press enters EditingSpeed with the selector at the
setpoint 0 and the bound 325. -/
theorem managePress_enters_EditingSpeed_witness :
    (run startup (pressAndTick ++ turnWithTicks 0 3)).ui.SPEED.state = some HOVER
      ∧ (routerInterface.managePress
          (run startup (pressAndTick ++ turnWithTicks 0 3))).ui.button_state = 4
      ∧ (routerInterface.managePress
          (run startup (pressAndTick ++ turnWithTicks 0 3))).myEncoder.max_count
          = (run startup (pressAndTick ++ turnWithTicks 0 3)).maxMotorSpeed :=
  ⟨by decide,
   (managePress_enters_EditingSpeed (run startup (pressAndTick ++ turnWithTicks 0 3))
      (by decide) (by decide) (by decide) (by decide)).1,
   (managePress_enters_EditingSpeed (run startup (pressAndTick ++ turnWithTicks 0 3))
      (by decide) (by decide) (by decide) (by decide)).2.2.1⟩

/-- C12: for every selector count `c`, a press in EditingSpeed writes `c` into the setpoint
register, returns the menu to SetMenu (`button_state = 1`) with SPEED hovered, and sets
`count = max_count = 3 * resolution` with `resolution` unchanged; with `c = 50` the register
reads 50 afterwards. -/
theorem managePress_commits_speed (s : System) (h4 : s.ui.button_state = 4) :
    (routerInterface.managePress s).speed_SP = s.myEncoder.count
      ∧ (routerInterface.managePress s).ui.button_state = 1
      ∧ (routerInterface.managePress s).ui.SPEED.state = some HOVER
      ∧ (routerInterface.managePress s).myEncoder.count = 3 * s.myEncoder.resolution
      ∧ (routerInterface.managePress s).myEncoder.max_count = 3 * s.myEncoder.resolution
      ∧ (routerInterface.managePress s).myEncoder.resolution = s.myEncoder.resolution
      ∧ (s.myEncoder.count = 50 → (routerInterface.managePress s).speed_SP = 50) := by
  simp [routerInterface.managePress, h4, screenButton.setState]

/-- Witness of C12: EditingSpeed with the selector at 50: after the press the setpoint register
holds 50. -/
theorem managePress_commits_speed_witness :
    (routerInterface.managePress
        { startup with
          ui := { startup.ui with button_state := 4 },
          myEncoder := { startup.myEncoder with count := 50, max_count := 325 } }).speed_SP = 50
      ∧ (routerInterface.managePress
        { startup with
          ui := { startup.ui with button_state := 4 },
          myEncoder := { startup.myEncoder with count := 50, max_count := 325 } }
        ).ui.button_state = 1 :=
  ⟨(managePress_commits_speed
      { startup with
        ui := { startup.ui with button_state := 4 },
        myEncoder := { startup.myEncoder with count := 50, max_count := 325 } } rfl).1,
   (managePress_commits_speed
      { startup with
        ui := { startup.ui with button_state := 4 },
        myEncoder := { startup.myEncoder with count := 50, max_count := 325 } } rfl).2.1⟩

/-- C14: a press in SetMenu with VIEW (the back option) hovered, or with none of VIEW, RES, SPEED
hovered, returns the menu to Neutral (`button_state = 0`) with `max_count = resolution`, sets
RES and SPEED to hidden and SET to unpressed, and leaves `count` and `resolution` unchanged. -/
theorem managePress_SetMenu_back (s : System) (h1 : s.ui.button_state = 1)
    (hback : s.ui.VIEW.state = some HOVER
      ∨ (s.ui.VIEW.state ≠ some HOVER ∧ s.ui.RES.state ≠ some HOVER
          ∧ s.ui.SPEED.state ≠ some HOVER)) :
    (routerInterface.managePress s).ui.button_state = 0
      ∧ (routerInterface.managePress s).myEncoder.max_count = s.myEncoder.resolution
      ∧ (routerInterface.managePress s).ui.RES.state = some OFF
      ∧ (routerInterface.managePress s).ui.SPEED.state = some OFF
      ∧ (routerInterface.managePress s).ui.SET.state = some UNPRESSED
      ∧ (routerInterface.managePress s).myEncoder.count = s.myEncoder.count
      ∧ (routerInterface.managePress s).myEncoder.resolution = s.myEncoder.resolution := by
  rcases hback with hV | ⟨hV, hR, hS⟩
  · simp [routerInterface.managePress, h1, hV, screenButton.setState]
  · simp [routerInterface.managePress, h1, hV, hR, hS, screenButton.setState]

/-- Witness of C14: SetMenu as entered from startup, the knob turned one step with a tick, so that
VIEW (back) is hovered: the press returns to Neutral. -/
theorem managePress_SetMenu_back_witness :
    (run startup (pressAndTick ++ turnWithTicks 0 1)).ui.VIEW.state = some HOVER
      ∧ (routerInterface.managePress
          (run startup (pressAndTick ++ turnWithTicks 0 1))).ui.button_state = 0 :=
  ⟨by decide,
   (managePress_SetMenu_back (run startup (pressAndTick ++ turnWithTicks 0 1))
      (by decide) (Or.inl (by decide))).1⟩

/-- C15: for every selector value and every combination of button visual states, a press in
ViewMode (`button_state = 2`) returns the menu to Neutral (`button_state = 0`) with
`max_count = resolution` and leaves `count`, `resolution` and the setpoint register
unchanged. -/
theorem managePress_ViewMode (s : System) (h2 : s.ui.button_state = 2) :
    (routerInterface.managePress s).ui.button_state = 0
      ∧ (routerInterface.managePress s).myEncoder.max_count = s.myEncoder.resolution
      ∧ (routerInterface.managePress s).myEncoder.count = s.myEncoder.count
      ∧ (routerInterface.managePress s).myEncoder.resolution = s.myEncoder.resolution
      ∧ (routerInterface.managePress s).speed_SP = s.speed_SP := by
  by_cases hS : s.ui.SET.state = some HOVER <;>
    simp [routerInterface.managePress, h2, hS]

/-- Witness of C15: ViewMode as entered from startup (one step to hover VIEW, then a press): the
next press returns to Neutral. -/
theorem managePress_ViewMode_witness :
    (run startup (turnWithTicks 0 1 ++ pressAndTick)).ui.button_state = 2
      ∧ (routerInterface.managePress
          (run startup (turnWithTicks 0 1 ++ pressAndTick))).ui.button_state = 0 :=
  ⟨by decide,
   (managePress_ViewMode (run startup (turnWithTicks 0 1 ++ pressAndTick)) (by decide)).1⟩

/-! ## The setpoint and the maximum speed -/

set_option maxRecDepth 100000 in
/-- C13 (the code at the failing input). With a menu tick after every event: set the resolution
to 10, enter EditingSpeed and turn 33 steps. The state is reachable, the menu is in
EditingSpeed at resolution 10 with the max-speed register at 325, and the selector count is
330; the next press commits 330 to the setpoint register. -/
theorem setpoint_above_max_speed_reachable :
    Reachable (run startup (pressAndTick ++ turnWithTicks 0 2 ++ pressAndTick
        ++ turnWithTicks 2 1 ++ pressAndTick ++ turnWithTicks 3 1 ++ pressAndTick
        ++ turnWithTicks 0 33))
      ∧ (run startup (pressAndTick ++ turnWithTicks 0 2 ++ pressAndTick
          ++ turnWithTicks 2 1 ++ pressAndTick ++ turnWithTicks 3 1 ++ pressAndTick
          ++ turnWithTicks 0 33)).ui.button_state = 4
      ∧ (run startup (pressAndTick ++ turnWithTicks 0 2 ++ pressAndTick
          ++ turnWithTicks 2 1 ++ pressAndTick ++ turnWithTicks 3 1 ++ pressAndTick
          ++ turnWithTicks 0 33)).myEncoder.resolution = 10
      ∧ (run startup (pressAndTick ++ turnWithTicks 0 2 ++ pressAndTick
          ++ turnWithTicks 2 1 ++ pressAndTick ++ turnWithTicks 3 1 ++ pressAndTick
          ++ turnWithTicks 0 33)).maxMotorSpeed = 325
      ∧ (run startup (pressAndTick ++ turnWithTicks 0 2 ++ pressAndTick
          ++ turnWithTicks 2 1 ++ pressAndTick ++ turnWithTicks 3 1 ++ pressAndTick
          ++ turnWithTicks 0 33)).myEncoder.count = 330
      ∧ (run startup (pressAndTick ++ turnWithTicks 0 2 ++ pressAndTick
          ++ turnWithTicks 2 1 ++ pressAndTick ++ turnWithTicks 3 1 ++ pressAndTick
          ++ turnWithTicks 0 33 ++ pressAndTick)).speed_SP = 330
      ∧ (run startup (pressAndTick ++ turnWithTicks 0 2 ++ pressAndTick
          ++ turnWithTicks 2 1 ++ pressAndTick ++ turnWithTicks 3 1 ++ pressAndTick
          ++ turnWithTicks 0 33 ++ pressAndTick)).maxMotorSpeed = 325 := by
  refine ⟨⟨_, rfl⟩, ?_, ?_, ?_, ?_, ?_, ?_⟩ <;> decide

/-! ## The measured-speed text in ViewMode -/

/-- The digit list of a number is longer than the list it is put in front of. -/
theorem toDigitsCore_length_pos (b : Nat) : ∀ (fuel n : Nat) (ds : List Char),
    ds.length + 1 ≤ (Nat.toDigitsCore b (fuel + 1) n ds).length := by
  intro fuel
  induction fuel with
  | zero =>
    intro n ds
    simp only [Nat.toDigitsCore]
    split_ifs <;> simp
  | succ f ih =>
    intro n ds
    rw [Nat.toDigitsCore]
    split_ifs
    · simp
    · have := ih (n / b) (Nat.digitChar (n % b) :: ds)
      simp only [List.length_cons] at this
      omega

/-- The decimal text of a natural number is not empty. -/
theorem Nat_toString_length_pos (n : Nat) : 0 < (toString n).length := by
  show 0 < (Nat.repr n).length
  have := toDigitsCore_length_pos 10 n n []
  simp only [Nat.repr, Nat.toDigits, String.length, List.asString]
  simpa using this

/-- The decimal text of an integer is not empty. -/
theorem Int_toString_length_pos (n : Int) : 0 < (toString n).length := by
  cases n with
  | ofNat m => exact Nat_toString_length_pos m
  | negSucc m =>
    show 0 < ("-" ++ toString (Nat.succ m)).length
    rw [String.length_append]
    have := Nat_toString_length_pos (Nat.succ m)
    omega

/-- A label followed by the decimal text of an integer differs from the label. -/
theorem append_toString_ne (label : String) (n : Int) : label ++ toString n ≠ label := by
  intro h
  have hl := congrArg String.length h
  rw [String.length_append] at hl
  have := Int_toString_length_pos n
  omega

/-- The tick without a press in ViewMode runs `manageView` after the button updates. -/
theorem routerInterface.refresh_ViewMode (s : System) (uninit : Int)
    (hp : s.myEncoder.pressed = false) (h2 : s.ui.button_state = 2) :
    routerInterface.refresh s uninit
      = routerInterface.manageView { s with ui := s.ui.updateButtons } uninit := by
  simp [routerInterface.refresh, hp, h2, routerInterface.updateButtons_button_state]

/-- The text `manageView` writes: the label followed by the value the local `currentSpeed` holds
after the queue was asked. -/
theorem routerInterface.manageView_text (s : System) (uninit : Int) :
    (routerInterface.manageView s uninit).ui.MES.text
      = "RPM:" ++ toString (Queue.get s.actualMotorSpeed uninit).1 := rfl

set_option maxRecDepth 100000 in
/-- C16 (the code at the failing input). ViewMode as entered from startup (one step to hover
VIEW, then a press): the queue is empty and the MES text is "RPM:". For every value `uninit`
of the local `currentSpeed`, which the empty queue leaves unassigned, the tick without a press
overwrites the text with "RPM:" followed by that value, so the text differs from the one
before the tick; with the value 7 it becomes "RPM:7". On a queue that is not empty,
`manageView` removes the oldest sample and the text becomes "RPM:" followed by it. -/
theorem manageView_empty_queue_overwrites_text (uninit : Int) :
    (Reachable (run startup (turnWithTicks 0 1 ++ pressAndTick))
      ∧ (run startup (turnWithTicks 0 1 ++ pressAndTick)).ui.button_state = 2
      ∧ (run startup (turnWithTicks 0 1 ++ pressAndTick)).myEncoder.pressed = false
      ∧ (run startup (turnWithTicks 0 1 ++ pressAndTick)).actualMotorSpeed = []
      ∧ (run startup (turnWithTicks 0 1 ++ pressAndTick)).ui.MES.text = "RPM:")
    ∧ (routerInterface.refresh (run startup (turnWithTicks 0 1 ++ pressAndTick)) uninit).ui.MES.text
        = "RPM:" ++ toString uninit
    ∧ (routerInterface.refresh (run startup (turnWithTicks 0 1 ++ pressAndTick)) uninit).ui.MES.text
        ≠ (run startup (turnWithTicks 0 1 ++ pressAndTick)).ui.MES.text
    ∧ (routerInterface.refresh (run startup (turnWithTicks 0 1 ++ pressAndTick)) 7).ui.MES.text
        = "RPM:7"
    ∧ (∀ (s : System) (sample : Int) (rest : List Int), s.actualMotorSpeed = sample :: rest →
        (routerInterface.manageView s uninit).ui.MES.text = "RPM:" ++ toString sample
        ∧ (routerInterface.manageView s uninit).actualMotorSpeed = rest) := by
  have h2 : (run startup (turnWithTicks 0 1 ++ pressAndTick)).ui.button_state = 2 := by decide
  have hp : (run startup (turnWithTicks 0 1 ++ pressAndTick)).myEncoder.pressed = false := by
    decide
  have hq : (run startup (turnWithTicks 0 1 ++ pressAndTick)).actualMotorSpeed = [] := by decide
  have ht : (run startup (turnWithTicks 0 1 ++ pressAndTick)).ui.MES.text = "RPM:" := by decide
  have htext : ∀ u : Int,
      (routerInterface.refresh (run startup (turnWithTicks 0 1 ++ pressAndTick)) u).ui.MES.text
        = "RPM:" ++ toString u := by
    intro u
    rw [routerInterface.refresh_ViewMode _ u hp h2, routerInterface.manageView_text]
    simp only [hq, Queue.get]
  refine ⟨⟨⟨_, rfl⟩, h2, hp, hq, ht⟩, htext uninit, ?_, ?_, ?_⟩
  · rw [htext uninit, ht]
    exact append_toString_ne "RPM:" uninit
  · rw [htext 7]
    decide
  · intro s sample rest hs
    constructor
    · rw [routerInterface.manageView_text, hs]
      rfl
    · simp only [routerInterface.manageView, hs, Queue.get]

/-! ## The resolution in reachable states -/

/-- A decoder step keeps `resolution` and `max_count`, and it moves the count up one step only
below `max_count`, down one step only from `resolution` upwards, or not at all. -/
theorem update_spin_cases (e : Encoder) (A B : Bool) :
    (e.update_spin A B).1.resolution = e.resolution
      ∧ (e.update_spin A B).1.max_count = e.max_count
      ∧ (e.update_spin A B).1.pressed = e.pressed
      ∧ (((e.update_spin A B).1.count = e.count + e.resolution ∧ e.count < e.max_count)
        ∨ ((e.update_spin A B).1.count = e.count - e.resolution ∧ e.resolution ≤ e.count)
        ∨ (e.update_spin A B).1.count = e.count) := by
  refine ⟨rfl, rfl, rfl, ?_⟩
  simp only [Encoder.update_spin]
  generalize (e.previous_reading * 4 + (digitalRead B * 2 + digitalRead A) % 256) % 256 = sum
  split_ifs with h1 h2 h2
  · omega
  · exact Or.inl ⟨rfl, h1.2⟩
  · exact Or.inr (Or.inl ⟨rfl, h2.2⟩)
  · exact Or.inr (Or.inr rfl)

/-- A press handled outside EditingResolution keeps the resolution. -/
theorem managePress_resolution_of_ne (s : System) (h3 : s.ui.button_state ≠ 3) :
    (routerInterface.managePress s).myEncoder.resolution = s.myEncoder.resolution := by
  unfold routerInterface.managePress
  simp only []
  split_ifs <;> rfl

/-- A press leads to EditingResolution only through the RES branch of SetMenu. -/
theorem managePress_button_state_three (s : System)
    (h : (routerInterface.managePress s).ui.button_state = 3) :
    s.ui.button_state = 3
      ∨ (s.ui.button_state = 1 ∧ s.ui.VIEW.state ≠ some HOVER ∧ s.ui.RES.state = some HOVER) := by
  unfold routerInterface.managePress at h
  simp only [] at h
  split_ifs at h <;> simp_all

/-- The resolution invariant holds at startup. -/
theorem ResInv_startup : ResInv startup := by
  refine ⟨Or.inl rfl, ?_⟩
  intro h
  exact absurd h (by decide)

/-- A press handled in a state with the resolution invariant leads to one with it. -/
theorem ResInv_managePress (s : System) (h : ResInv s) :
    ResInv (routerInterface.managePress s) := by
  obtain ⟨hr, h3⟩ := h
  have hr0 : s.myEncoder.resolution ≠ 0 := by
    rcases hr with h | h | h | h <;> rw [h] <;> decide
  by_cases b3 : s.ui.button_state = 3
  · obtain ⟨-, k, hk, hc⟩ := h3 b3
    obtain ⟨hb, -, hres, -, -⟩ := managePress_EditingResolution s b3
    have hres2 : (routerInterface.managePress s).myEncoder.resolution = 10 ^ k := by
      rw [hres, hc, Int.mul_tdiv_cancel _ hr0, pow10, if_pos (Int.ofNat_nonneg k),
        Int.toNat_ofNat]
    refine ⟨?_, ?_⟩
    · rw [hres2]
      interval_cases k <;> simp
    · intro h
      rw [hb] at h
      exact absurd h (by decide)
  · refine ⟨?_, ?_⟩
    · rw [managePress_resolution_of_ne s b3]
      exact hr
    · intro h
      rcases managePress_button_state_three s h with h' | ⟨b1, hV, hR⟩
      · exact absurd h' b3
      · obtain ⟨-, hc, hm, hres, -⟩ := managePress_SetMenu_RES s b1 hV hR
        obtain ⟨l1, l10, l100, l1000⟩ := log10_times_values
        rw [hc, hm, hres]
        refine ⟨rfl, ?_⟩
        rcases hr with h | h | h | h <;> rw [h]
        · exact ⟨0, by decide, by rw [l1]; rfl⟩
        · exact ⟨1, by decide, by rw [l10]; rfl⟩
        · exact ⟨2, by decide, by rw [l100]; rfl⟩
        · exact ⟨3, by decide, by rw [l1000]; rfl⟩

/-- A tick in a state with the resolution invariant leads to one with it. -/
theorem ResInv_refresh (s : System) (uninit : Int) (h : ResInv s) :
    ResInv (routerInterface.refresh s uninit) := by
  cases hp : s.myEncoder.pressed
  · obtain ⟨hb, he, -, -⟩ := routerInterface.refresh_frame s uninit hp
    unfold ResInv
    rw [hb, he]
    exact h
  · have hrun : routerInterface.refresh s uninit
        = routerInterface.managePress { s with ui := s.ui.updateButtons } := by
      simp [routerInterface.refresh, hp]
    rw [hrun]
    exact ResInv_managePress _ h

/-- A decoder step in a state with the resolution invariant leads to one with it. -/
theorem ResInv_spin (s : System) (A B : Bool) (h : ResInv s) :
    ResInv { s with myEncoder := (s.myEncoder.update_spin A B).1 } := by
  obtain ⟨hr, h3⟩ := h
  obtain ⟨hres, hmax, -, hcount⟩ := update_spin_cases s.myEncoder A B
  refine ⟨by simpa only [hres] using hr, ?_⟩
  intro b3
  obtain ⟨hm, k, hk, hc⟩ := h3 b3
  have hr1 : 1 ≤ s.myEncoder.resolution := by
    rcases hr with h | h | h | h <;> rw [h] <;> decide
  simp only [hres, hmax]
  refine ⟨hm, ?_⟩
  rcases hcount with ⟨hup, hlt⟩ | ⟨hdown, hge⟩ | hsame
  · have hk3 : k < 3 := by
      by_contra hcon
      have : k = 3 := by omega
      rw [hc, hm, this] at hlt
      simp at hlt
    refine ⟨k + 1, by omega, ?_⟩
    rw [hup, hc]
    push_cast
    ring
  · have hk1 : 1 ≤ k := by
      by_contra hcon
      have : k = 0 := by omega
      rw [hc, this] at hge
      simp at hge
      omega
    refine ⟨k - 1, by omega, ?_⟩
    rw [hdown, hc]
    have : ((k - 1 : Nat) : Int) = (k : Int) - 1 := by omega
    rw [this]
    ring
  · exact ⟨k, hk, by rw [hsame, hc]⟩

/-- Every event keeps the resolution invariant. -/
theorem ResInv_step (s : System) (ev : Event) (h : ResInv s) : ResInv (step s ev) := by
  cases ev with
  | spin A B => exact ResInv_spin s A B h
  | press pin => exact h
  | tick uninit => exact ResInv_refresh s uninit h
  | motorSample speed => exact h

/-- Every event sequence keeps the resolution invariant. -/
theorem ResInv_run (events : List Event) (s : System) (h : ResInv s) :
    ResInv (run s events) := by
  induction events generalizing s with
  | nil => exact h
  | cons ev rest ih => exact ih (step s ev) (ResInv_step s ev h)

/-- An event changes the resolution only if it is a menu tick that handles a press in
EditingResolution. -/
theorem step_resolution_changes (s : System) (ev : Event)
    (h : (step s ev).myEncoder.resolution ≠ s.myEncoder.resolution) :
    ∃ uninit : Int, ev = Event.tick uninit ∧ s.myEncoder.pressed = true
      ∧ s.ui.button_state = 3 := by
  cases ev with
  | spin A B => exact absurd (update_spin_cases s.myEncoder A B).1 h
  | press pin => exact absurd rfl h
  | motorSample speed => exact absurd rfl h
  | tick uninit =>
    refine ⟨uninit, rfl, ?_⟩
    cases hp : s.myEncoder.pressed
    · have he := (routerInterface.refresh_frame s uninit hp).2.1
      exact absurd (by rw [show step s (Event.tick uninit) = routerInterface.refresh s uninit
        from rfl, he]) h
    · refine ⟨rfl, ?_⟩
      by_contra b3
      have hrun : routerInterface.refresh s uninit
          = routerInterface.managePress { s with ui := s.ui.updateButtons } := by
        simp [routerInterface.refresh, hp]
      apply h
      show (routerInterface.refresh s uninit).myEncoder.resolution = s.myEncoder.resolution
      rw [hrun]
      exact managePress_resolution_of_ne _ b3

/-- C17: in every state reachable from startup by decoder steps, press interrupts and menu ticks,
the resolution is one of 1, 10, 100, 1000 (with `10 ^ k` the exact integer power); an event
changes the resolution only as the commit of EditingResolution (a menu tick that handles a
press with `button_state = 3`), and whenever the menu is in EditingResolution the count is a
multiple `k * resolution` of the old resolution with `k ≤ 3`, that is in
`[0, 3 * resolution]`. -/
theorem resolution_is_power_of_ten (s : System) (hs : Reachable s) :
    (s.myEncoder.resolution = 1 ∨ s.myEncoder.resolution = 10
        ∨ s.myEncoder.resolution = 100 ∨ s.myEncoder.resolution = 1000)
      ∧ (∀ ev : Event, (step s ev).myEncoder.resolution ≠ s.myEncoder.resolution →
          ∃ uninit : Int, ev = Event.tick uninit ∧ s.myEncoder.pressed = true
            ∧ s.ui.button_state = 3)
      ∧ (s.ui.button_state = 3 →
          ∃ k : Nat, k ≤ 3 ∧ s.myEncoder.count = k * s.myEncoder.resolution
            ∧ 0 ≤ s.myEncoder.count ∧ s.myEncoder.count ≤ 3 * s.myEncoder.resolution) := by
  obtain ⟨events, rfl⟩ := hs
  obtain ⟨hr, h3⟩ := ResInv_run events startup ResInv_startup
  refine ⟨hr, fun ev h => step_resolution_changes _ ev h, ?_⟩
  intro b3
  obtain ⟨-, k, hk, hc⟩ := h3 b3
  have hr1 : 1 ≤ (run startup events).myEncoder.resolution := by
    rcases hr with h | h | h | h <;> rw [h] <;> decide
  refine ⟨k, hk, hc, ?_, ?_⟩
  · rw [hc]
    positivity
  · rw [hc]
    have : (k : Int) ≤ 3 := by exact_mod_cast hk
    nlinarith

set_option maxRecDepth 100000 in
/-- Witness of C17: the state after the resolution was set to 10 from startup (SetMenu, RES,
one step in EditingResolution, commit): it is reachable and its resolution is 10. -/
theorem resolution_is_power_of_ten_witness :
    Reachable (run startup (pressAndTick ++ turnWithTicks 0 2 ++ pressAndTick
        ++ turnWithTicks 2 1 ++ pressAndTick))
      ∧ (run startup (pressAndTick ++ turnWithTicks 0 2 ++ pressAndTick
          ++ turnWithTicks 2 1 ++ pressAndTick)).myEncoder.resolution = 10
      ∧ ((run startup (pressAndTick ++ turnWithTicks 0 2 ++ pressAndTick
            ++ turnWithTicks 2 1 ++ pressAndTick)).myEncoder.resolution = 1
        ∨ (run startup (pressAndTick ++ turnWithTicks 0 2 ++ pressAndTick
            ++ turnWithTicks 2 1 ++ pressAndTick)).myEncoder.resolution = 10
        ∨ (run startup (pressAndTick ++ turnWithTicks 0 2 ++ pressAndTick
            ++ turnWithTicks 2 1 ++ pressAndTick)).myEncoder.resolution = 100
        ∨ (run startup (pressAndTick ++ turnWithTicks 0 2 ++ pressAndTick
            ++ turnWithTicks 2 1 ++ pressAndTick)).myEncoder.resolution = 1000) :=
  ⟨⟨_, rfl⟩, by decide,
   (resolution_is_power_of_ten
      (run startup (pressAndTick ++ turnWithTicks 0 2 ++ pressAndTick
        ++ turnWithTicks 2 1 ++ pressAndTick)) ⟨_, rfl⟩).1⟩

/-! ## The debouncer -/

/-- The counting loop adds the number of high readings it polls, as long as the 8-bit counter
cannot wrap. -/
theorem debounce_loop_eq (pin : Nat → Bool) : ∀ (n k c : Nat), c + n ≤ 255 →
    Encoder.debounce_loop pin n k c = c + (List.range n).countP (fun i => pin (k + i)) := by
  intro n
  induction n with
  | zero =>
    intro k c _
    simp [Encoder.debounce_loop]
  | succ n ih =>
    intro k c hc
    have hmod : (c + 1) % 256 = c + 1 := Nat.mod_eq_of_lt (by omega)
    have hshift : (fun i => pin (k + 1 + i)) = (fun i => pin (k + i)) ∘ Nat.succ := by
      funext i
      simp only [Function.comp]
      congr 1
      omega
    rw [Encoder.debounce_loop, List.range_succ_eq_map, List.countP_cons, List.countP_map,
      ← hshift]
    cases hpin : pin k
    · rw [ih (k + 1) _ (by simp [digitalRead]; omega)]
      simp [digitalRead, hpin]
    · rw [ih (k + 1) _ (by simp [digitalRead, hmod]; omega)]
      simp [digitalRead, hpin, hmod]
      omega

/-- For an 8-bit limit, the counter of `debounce` ends at the number of high readings. -/
theorem debounce_loop_highReadings (pin : Nat → Bool) (limit : Nat) (hl : limit ≤ 255) :
    Encoder.debounce_loop pin limit 0 0 = highReadings pin limit := by
  rw [debounce_loop_eq pin limit 0 0 (by omega)]
  simp [highReadings]

/-- The loop that tests its condition stops after `limit - k` further polls, with the count of
the counting loop. -/
theorem debounce_for_eq (pin : Nat → Bool) (limit : Nat) (hl : limit ≤ 255) :
    ∀ (fuel k c polls : Nat), k ≤ limit → limit - k ≤ fuel →
      Encoder.debounce_for pin limit fuel k c polls
        = some (Encoder.debounce_loop pin (limit - k) polls c, polls + (limit - k)) := by
  intro fuel
  induction fuel with
  | zero =>
    intro k c polls hk hf
    have hkl : k = limit := by omega
    subst hkl
    simp [Encoder.debounce_for, Encoder.debounce_loop]
  | succ f ih =>
    intro k c polls hk hf
    rw [Encoder.debounce_for]
    by_cases hlt : k < limit
    · have hmod : (k + 1) % 256 = k + 1 := Nat.mod_eq_of_lt (by omega)
      have hsub : limit - k = (limit - (k + 1)) + 1 := by omega
      rw [if_pos hlt, hmod, ih (k + 1) _ (polls + 1) (by omega) (by omega), hsub,
        Encoder.debounce_loop]
      congr 2
      omega
    · have hkl : limit - k = 0 := by omega
      rw [if_neg hlt, hkl]
      rfl

/-- The value of `debounce`: whether the high readings exceed `limit - 2`, as integers. -/
theorem debounce_eq (pin : Nat → Bool) (limit : Nat) (hl : limit ≤ 255) :
    Encoder.debounce pin limit = decide ((highReadings pin limit : Int) > (limit : Int) - 2) := by
  simp only [Encoder.debounce, debounce_loop_highReadings pin limit hl]

/-- C18: for every limit in 0..255 and every sequence of pin readings, the loop of `debounce`
terminates after exactly `limit` polls of the pin (any fuel of at least `limit` iterations is
enough) with the number of high readings in its counter, and `debounce` returns true exactly
when that number exceeds `limit - 2` in signed integer arithmetic; for limit 50, as in
`update_press`, it returns true exactly when at least 49 of the 50 readings are high, and false
for exactly 48 highs. -/
theorem debounce_polls_and_threshold (pin : Nat → Bool) (limit : Nat) (hl : limit ≤ 255) :
    (∀ fuel : Nat, limit ≤ fuel →
        Encoder.debounce_for pin limit fuel 0 0 0 = some (highReadings pin limit, limit))
      ∧ (Encoder.debounce pin limit = true
          ↔ (highReadings pin limit : Int) > (limit : Int) - 2)
      ∧ (Encoder.debounce pin 50 = true ↔ 49 ≤ highReadings pin 50)
      ∧ (highReadings pin 50 = 48 → Encoder.debounce pin 50 = false)
      ∧ (∀ e : Encoder, (e.update_press pin).1.pressed = true ↔ 49 ≤ highReadings pin 50) := by
  have h50 : Encoder.debounce pin 50 = true ↔ 49 ≤ highReadings pin 50 := by
    rw [debounce_eq pin 50 (by decide), decide_eq_true_iff]
    omega
  refine ⟨?_, ?_, h50, ?_, ?_⟩
  · intro fuel hf
    rw [debounce_for_eq pin limit hl fuel 0 0 0 (Nat.zero_le _) (by omega), Nat.sub_zero,
      debounce_loop_highReadings pin limit hl, Nat.zero_add]
  · rw [debounce_eq pin limit hl, decide_eq_true_iff]
  · intro h48
    cases hd : Encoder.debounce pin 50
    · rfl
    · have := h50.mp hd
      omega
  · intro e
    rw [← h50]
    cases hd : Encoder.debounce pin 50 <;> simp [Encoder.update_press, hd]

/-- Witness of C18: limit 50 and a firm press: the loop stops after 50 polls with 50 highs. -/
theorem debounce_polls_and_threshold_witness :
    50 ≤ 255
      ∧ Encoder.debounce_for firmPress 50 50 0 0 0 = some (highReadings firmPress 50, 50) :=
  ⟨by decide, (debounce_polls_and_threshold firmPress 50 (by decide)).1 50 (le_refl 50)⟩

/-- C19, the claim refuted at limit 50: when the first of the 50 polled samples is low and the
other 49 are high (exactly `limit - 1` highs), `debounce` returns true and `update_press` sets
`pressed = true`. -/
theorem debounce_all_but_one_high_counterexample :
    2 ≤ 50
      ∧ highReadings (fun k => decide (0 < k)) 50 = 50 - 1
      ∧ Encoder.debounce (fun k => decide (0 < k)) 50 ≠ false
      ∧ (Encoder.new.update_press (fun k => decide (0 < k))).1.pressed ≠ false := by
  refine ⟨by decide, by decide, by decide, by decide⟩

/-- C19 as amended: for every limit in 2..255, when exactly `limit - 1` of the `limit` polled
samples are high, `debounce` returns true, and `update_press` (limit 50, 49 highs) sets
`pressed = true`. -/
theorem debounce_all_but_one_high (pin : Nat → Bool) (limit : Nat) (h2 : 2 ≤ limit)
    (hl : limit ≤ 255) (hhigh : highReadings pin limit = limit - 1) :
    Encoder.debounce pin limit = true
      ∧ (limit = 50 → ∀ e : Encoder, (e.update_press pin).1.pressed = true) := by
  have hd : Encoder.debounce pin limit = true := by
    rw [debounce_eq pin limit hl, decide_eq_true_iff, hhigh]
    omega
  refine ⟨hd, ?_⟩
  intro h50 e
  subst h50
  simp [Encoder.update_press, hd]

/-- Witness of C19 as amended: limit 50, the first sample low and the other 49 high. -/
theorem debounce_all_but_one_high_witness :
    highReadings (fun k => decide (0 < k)) 50 = 50 - 1
      ∧ Encoder.debounce (fun k => decide (0 < k)) 50 = true
      ∧ (Encoder.new.update_press (fun k => decide (0 < k))).1.pressed = true :=
  ⟨by decide,
   (debounce_all_but_one_high (fun k => decide (0 < k)) 50 (by decide) (by decide)
      (by decide)).1,
   (debounce_all_but_one_high (fun k => decide (0 < k)) 50 (by decide) (by decide)
      (by decide)).2 rfl Encoder.new⟩

/-! ## The cadence of the speed estimator -/

/-- A call of `update` that is not due changes the position, the direction and the tick counter
only. -/
theorem motorEncoder.update_of_not_due (m : motorEncoder) (timestamp : Nat) (dir : Bool)
    (h : ¬ m.update_due) :
    (m.update timestamp dir).speed_RPM = m.speed_RPM
      ∧ (m.update timestamp dir).motorSpeed = m.motorSpeed
      ∧ (m.update timestamp dir).timestamp_previous_interrupt = m.timestamp_previous_interrupt
      ∧ (m.update timestamp dir).count_previous_interrupt = m.count_previous_interrupt
      ∧ (m.update timestamp dir).counts_until_update = (m.counts_until_update + 1) % 256
      ∧ (m.update timestamp dir).update_frequency = m.update_frequency
      ∧ (m.update timestamp dir).counts_per_rev = m.counts_per_rev := by
  unfold motorEncoder.update_due at h
  simp [motorEncoder.update, h]

/-- A call of `update` that is due restarts the window: the tick counter is 0, the stored
timestamp is the one of the call and the stored position is the new position. -/
theorem motorEncoder.update_of_due (m : motorEncoder) (timestamp : Nat) (dir : Bool)
    (h : m.update_due) :
    (m.update timestamp dir).counts_until_update = 0
      ∧ (m.update timestamp dir).timestamp_previous_interrupt = timestamp
      ∧ (m.update timestamp dir).count_previous_interrupt = (m.update timestamp dir).count := by
  unfold motorEncoder.update_due at h
  simp [motorEncoder.update, h]

/-- While the tick counter stays within the cadence, a sequence of calls keeps the rate, the
published speed, the stored timestamp and the stored position, and counts the calls. -/
theorem motorEncoder.updates_quiet (inputs : List (Nat × Bool)) : ∀ m : motorEncoder,
    m.update_frequency ≤ 255 → m.counts_until_update + inputs.length ≤ m.update_frequency →
    (m.updates inputs).speed_RPM = m.speed_RPM
      ∧ (m.updates inputs).motorSpeed = m.motorSpeed
      ∧ (m.updates inputs).timestamp_previous_interrupt = m.timestamp_previous_interrupt
      ∧ (m.updates inputs).count_previous_interrupt = m.count_previous_interrupt
      ∧ (m.updates inputs).counts_until_update = m.counts_until_update + inputs.length
      ∧ (m.updates inputs).update_frequency = m.update_frequency := by
  induction inputs with
  | nil =>
    intro m _ _
    exact ⟨rfl, rfl, rfl, rfl, rfl, rfl⟩
  | cons input rest ih =>
    intro m h255 hlen
    simp only [List.length_cons] at hlen
    have hmod : (m.counts_until_update + 1) % 256 = m.counts_until_update + 1 :=
      Nat.mod_eq_of_lt (by omega)
    have hnot : ¬ m.update_due := by
      unfold motorEncoder.update_due
      rw [hmod]
      omega
    obtain ⟨e1, e2, e3, e4, e5, e6, -⟩ := motorEncoder.update_of_not_due m input.1 input.2 hnot
    rw [hmod] at e5
    obtain ⟨i1, i2, i3, i4, i5, i6⟩ := ih (m.update input.1 input.2) (by rw [e6]; exact h255)
      (by rw [e5, e6]; omega)
    have hrun : m.updates (input :: rest) = (m.update input.1 input.2).updates rest := rfl
    refine ⟨by rw [hrun, i1, e1], by rw [hrun, i2, e2], by rw [hrun, i3, e3],
      by rw [hrun, i4, e4], ?_, by rw [hrun, i6, e6]⟩
    rw [hrun, i5, e5, List.length_cons]
    omega

/-- C20: for every update cadence `N = update_frequency` with `N < 255`, starting from a state
whose tick counter is 0, after any `k ≤ N` calls of `update` (with arbitrary timestamps and
directions) the rate, the published speed, the stored previous timestamp and the stored
previous position are unchanged and the tick counter is `k`; none of the first `N` calls is
due, and the call number `N + 1` is due: it enters the rate-update branch, which resets the
tick counter to 0 and restarts the window. -/
theorem update_cadence (m : motorEncoder) (N : Nat) (inputs : List (Nat × Bool))
    (hN : m.update_frequency = N) (h255 : N < 255) (h0 : m.counts_until_update = 0)
    (hlen : inputs.length ≤ N) :
    (m.updates inputs).speed_RPM = m.speed_RPM
      ∧ (m.updates inputs).motorSpeed = m.motorSpeed
      ∧ (m.updates inputs).timestamp_previous_interrupt = m.timestamp_previous_interrupt
      ∧ (m.updates inputs).count_previous_interrupt = m.count_previous_interrupt
      ∧ (m.updates inputs).counts_until_update = inputs.length
      ∧ (inputs.length < N → ¬ (m.updates inputs).update_due)
      ∧ (inputs.length = N →
          (m.updates inputs).update_due
          ∧ ∀ (timestamp : Nat) (dir : Bool),
              ((m.updates inputs).update timestamp dir).counts_until_update = 0
              ∧ ((m.updates inputs).update timestamp dir).timestamp_previous_interrupt
                  = timestamp
              ∧ ((m.updates inputs).update timestamp dir).count_previous_interrupt
                  = ((m.updates inputs).update timestamp dir).count) := by
  obtain ⟨q1, q2, q3, q4, q5, q6⟩ :=
    motorEncoder.updates_quiet inputs m (by omega) (by omega)
  rw [h0, Nat.zero_add] at q5
  refine ⟨q1, q2, q3, q4, q5, ?_, ?_⟩
  · intro hlt
    unfold motorEncoder.update_due
    rw [q5, q6, hN, Nat.mod_eq_of_lt (by omega)]
    omega
  · intro heq
    have hdue : (m.updates inputs).update_due := by
      unfold motorEncoder.update_due
      rw [q5, q6, hN, heq, Nat.mod_eq_of_lt (by omega)]
      omega
    exact ⟨hdue, fun timestamp dir => motorEncoder.update_of_due _ timestamp dir hdue⟩

/-- Witness of C20: the constructed estimator with cadence 2 and 20 ticks per revolution, three
calls: after the first two the tick counter is 2 and the third call is due. -/
theorem update_cadence_witness :
    (motorEncoder.new 0 20 2).counts_until_update = 0
      ∧ ((motorEncoder.new 0 20 2).updates [(100, false), (200, false)]).counts_until_update
          = 2
      ∧ ((motorEncoder.new 0 20 2).updates [(100, false), (200, false)]).update_due :=
  ⟨rfl,
   (update_cadence (motorEncoder.new 0 20 2) 2 [(100, false), (200, false)] rfl (by decide) rfl
      (by decide)).2.2.2.2.1,
   ((update_cadence (motorEncoder.new 0 20 2) 2 [(100, false), (200, false)] rfl (by decide) rfl
      (by decide)).2.2.2.2.2.2 rfl).1⟩

/-! ## The rate computation of the speed estimator -/

/-- The rate a due call of `update` with timestamps in order stores: the tick delta over the time
delta, times the integer quotient of 60000000 by the ticks per revolution. -/
theorem motorEncoder.update_rate (m : motorEncoder) (timestamp : Nat) (dir : Bool)
    (hdue : m.update_due) (ht : m.timestamp_previous_interrupt < timestamp) :
    (m.update timestamp dir).speed_RPM
      = ((|(m.update timestamp dir).count - m.count_previous_interrupt| : Int) : ℚ)
          / ((timestamp - m.timestamp_previous_interrupt : Nat) : ℚ)
          * ((60000000 / m.counts_per_rev : Nat) : ℚ) := by
  unfold motorEncoder.update_due at hdue
  simp [motorEncoder.update, hdue, ht]

/-- C21 (the code at the failing input). The constructed estimator with 7 ticks per revolution
and cadence 0, first call at timestamp 1: the call is a rate-update tick with the stored
timestamp 0 below 1, the tick delta is 1 and the time delta is 1. The code multiplies by the
integer quotient `60000000 / 7 = 8571428` and stores the rate 8571428, while
`deltaTicks / deltaTime * 1e6 * 60 / R` is `60000000 / 7`, which is not an integer. -/
theorem update_rate_truncates_factor :
    (motorEncoder.new 0 7 0).update_due
      ∧ (motorEncoder.new 0 7 0).timestamp_previous_interrupt < 1
      ∧ ((motorEncoder.new 0 7 0).update 1 false).count
          - (motorEncoder.new 0 7 0).count_previous_interrupt = 1
      ∧ ((motorEncoder.new 0 7 0).update 1 false).speed_RPM = 8571428
      ∧ ((motorEncoder.new 0 7 0).update 1 false).speed_RPM
          ≠ ((1 : Int) : ℚ) / ((1 - 0 : Nat) : ℚ) * 1000000 * 60 / 7 := by
  have hdue : (motorEncoder.new 0 7 0).update_due := by
    unfold motorEncoder.update_due motorEncoder.new
    decide
  have ht : (motorEncoder.new 0 7 0).timestamp_previous_interrupt < 1 := by
    unfold motorEncoder.new
    decide
  have hrate : ((motorEncoder.new 0 7 0).update 1 false).speed_RPM = 8571428 := by
    rw [motorEncoder.update_rate _ 1 false hdue ht]
    simp [motorEncoder.update, motorEncoder.new]
  refine ⟨hdue, ht, ?_, hrate, ?_⟩
  · simp [motorEncoder.update, motorEncoder.new]
  · rw [hrate]
    norm_num

/-- C22: on a rate-update tick of `update` whose stored timestamp is not below the timestamp of
the call (timer wraparound) the rate and the published speed keep their values, while the
position still moves by one tick and the window is restarted: stored timestamp := timestamp,
stored position := position, tick counter := 0. -/
theorem update_wraparound_skips_rate (m : motorEncoder) (timestamp : Nat) (dir : Bool)
    (hdue : m.update_due) (hwrap : m.timestamp_previous_interrupt ≥ timestamp) :
    (m.update timestamp dir).speed_RPM = m.speed_RPM
      ∧ (m.update timestamp dir).motorSpeed = m.motorSpeed
      ∧ (m.update timestamp dir).count = (if dir then m.count - 1 else m.count + 1)
      ∧ (m.update timestamp dir).timestamp_previous_interrupt = timestamp
      ∧ (m.update timestamp dir).count_previous_interrupt = (m.update timestamp dir).count
      ∧ (m.update timestamp dir).counts_until_update = 0
      ∧ m.update_divisor timestamp = none := by
  unfold motorEncoder.update_due at hdue
  have hnot : ¬ m.timestamp_previous_interrupt < timestamp := by omega
  simp [motorEncoder.update, motorEncoder.update_divisor, hdue, hnot]

/-- Witness of C22: an estimator with cadence 0 whose stored timestamp is 4294967000, called
with the timestamp 50 the timer shows after it wrapped: the rate 120 is kept and the stored
timestamp becomes 50. -/
theorem update_wraparound_skips_rate_witness :
    ({ motorEncoder.new 120 20 0 with
        timestamp_previous_interrupt := 4294967000, speed_RPM := 120 } : motorEncoder).update_due
      ∧ (({ motorEncoder.new 120 20 0 with
          timestamp_previous_interrupt := 4294967000, speed_RPM := 120 } : motorEncoder).update
            50 false).speed_RPM = 120
      ∧ (({ motorEncoder.new 120 20 0 with
          timestamp_previous_interrupt := 4294967000, speed_RPM := 120 } : motorEncoder).update
            50 false).timestamp_previous_interrupt = 50 :=
  ⟨by unfold motorEncoder.update_due motorEncoder.new; decide,
   (update_wraparound_skips_rate
      { motorEncoder.new 120 20 0 with
        timestamp_previous_interrupt := 4294967000, speed_RPM := 120 } 50 false
      (by unfold motorEncoder.update_due motorEncoder.new; decide)
      (by unfold motorEncoder.new; decide)).1,
   (update_wraparound_skips_rate
      { motorEncoder.new 120 20 0 with
        timestamp_previous_interrupt := 4294967000, speed_RPM := 120 } 50 false
      (by unfold motorEncoder.update_due motorEncoder.new; decide)
      (by unfold motorEncoder.new; decide)).2.2.2.1⟩

/-! ## The divisor of the rate computation -/

/-- No call of `update` assigns `counts_per_rev` or `update_frequency`. -/
theorem motorEncoder.update_keeps_configuration (m : motorEncoder) (timestamp : Nat)
    (dir : Bool) :
    (m.update timestamp dir).counts_per_rev = m.counts_per_rev
      ∧ (m.update timestamp dir).update_frequency = m.update_frequency := by
  unfold motorEncoder.update
  simp only []
  split_ifs <;> exact ⟨rfl, rfl⟩

/-- No sequence of calls of `update` assigns `counts_per_rev` or `update_frequency`. -/
theorem motorEncoder.updates_keep_configuration (inputs : List (Nat × Bool)) :
    ∀ m : motorEncoder, (m.updates inputs).counts_per_rev = m.counts_per_rev
      ∧ (m.updates inputs).update_frequency = m.update_frequency := by
  induction inputs with
  | nil =>
    intro m
    exact ⟨rfl, rfl⟩
  | cons input rest ih =>
    intro m
    obtain ⟨h1, h2⟩ := ih (m.update input.1 input.2)
    obtain ⟨k1, k2⟩ := motorEncoder.update_keeps_configuration m input.1 input.2
    have hrun : m.updates (input :: rest) = (m.update input.1 input.2).updates rest := rfl
    rw [hrun, h1, h2, k1, k2]
    exact ⟨rfl, rfl⟩

/-- C23 (the code at the failing input). The estimator `myMotorEncoder` as constructed has
`counts_per_rev = 0` and `update_frequency = 0`, and `motorISR` (which calls `update` and
nothing else on it) keeps both at 0 through any sequence of interrupts. The first interrupt,
at `micros() = 1000`, enters the rate-update branch with the stored timestamp 0 below 1000 and
evaluates `1000000*60/counts_per_rev` with the divisor 0; so does every call of `update`, in
any state with `counts_per_rev = 0`, that is a rate-update tick with timestamps in order. -/
theorem update_divides_by_zero :
    myMotorEncoder.counts_per_rev = 0
      ∧ myMotorEncoder.update_frequency = 0
      ∧ myMotorEncoder.update_divisor 1000 = some 0
      ∧ (motorISR myMotorEncoder [] 1000 false).1 = myMotorEncoder.update 1000 false
      ∧ (∀ inputs : List (Nat × Bool),
          (myMotorEncoder.updates inputs).counts_per_rev = 0
          ∧ (myMotorEncoder.updates inputs).update_frequency = 0)
      ∧ (∀ (m : motorEncoder) (timestamp : Nat), m.counts_per_rev = 0 → m.update_due →
          m.timestamp_previous_interrupt < timestamp → m.update_divisor timestamp = some 0) := by
  refine ⟨rfl, rfl, ?_, ?_, ?_, ?_⟩
  · simp [motorEncoder.update_divisor, myMotorEncoder, motorEncoder.new]
  · simp [motorISR, digitalRead]
  · intro inputs
    exact motorEncoder.updates_keep_configuration inputs myMotorEncoder
  · intro m timestamp hR hdue ht
    unfold motorEncoder.update_due at hdue
    simp [motorEncoder.update_divisor, hdue, ht, hR]

/-! ## The cadence 255 -/

/-- With the cadence 255 no call of `update` is due, whatever the tick counter holds. -/
theorem motorEncoder.not_due_of_cadence_255 (m : motorEncoder) (h : m.update_frequency = 255) :
    ¬ m.update_due := by
  unfold motorEncoder.update_due
  rw [h]
  have := Nat.mod_lt (m.counts_until_update + 1) (show 256 > 0 by decide)
  omega

/-- With the cadence 255 a sequence of calls keeps the rate, the published speed, the stored
timestamp and the stored position, and counts the calls modulo 256. -/
theorem motorEncoder.updates_cadence_255 (inputs : List (Nat × Bool)) : ∀ m : motorEncoder,
    m.update_frequency = 255 →
    (m.updates inputs).speed_RPM = m.speed_RPM
      ∧ (m.updates inputs).motorSpeed = m.motorSpeed
      ∧ (m.updates inputs).timestamp_previous_interrupt = m.timestamp_previous_interrupt
      ∧ (m.updates inputs).count_previous_interrupt = m.count_previous_interrupt
      ∧ (m.updates inputs).counts_until_update % 256
          = (m.counts_until_update + inputs.length) % 256
      ∧ (m.updates inputs).update_frequency = 255 := by
  induction inputs with
  | nil =>
    intro m h
    exact ⟨rfl, rfl, rfl, rfl, rfl, h⟩
  | cons input rest ih =>
    intro m h
    obtain ⟨e1, e2, e3, e4, e5, e6, -⟩ :=
      motorEncoder.update_of_not_due m input.1 input.2 (motorEncoder.not_due_of_cadence_255 m h)
    obtain ⟨i1, i2, i3, i4, i5, i6⟩ := ih (m.update input.1 input.2) (by rw [e6]; exact h)
    have hrun : m.updates (input :: rest) = (m.update input.1 input.2).updates rest := rfl
    refine ⟨by rw [hrun, i1, e1], by rw [hrun, i2, e2], by rw [hrun, i3, e3],
      by rw [hrun, i4, e4], ?_, by rw [hrun, i6]⟩
    rw [hrun, i5, e5, List.length_cons]
    omega

/-- C28: with the update cadence `update_frequency = 255`, after every sequence of calls of
`update` the rate, the published speed, the stored previous timestamp and the stored previous
position hold their initial values, and the next call does not enter the rate-update branch:
the 8-bit tick counter never exceeds 255 and wraps from 255 to 0; the position changes with
every call. -/
theorem update_cadence_255_never_due (m : motorEncoder) (inputs : List (Nat × Bool))
    (h255 : m.update_frequency = 255) :
    (m.updates inputs).speed_RPM = m.speed_RPM
      ∧ (m.updates inputs).motorSpeed = m.motorSpeed
      ∧ (m.updates inputs).timestamp_previous_interrupt = m.timestamp_previous_interrupt
      ∧ (m.updates inputs).count_previous_interrupt = m.count_previous_interrupt
      ∧ ¬ (m.updates inputs).update_due
      ∧ (∀ (timestamp : Nat) (dir : Bool),
          ((m.updates inputs).update timestamp dir).counts_until_update ≤ 255
          ∧ ((m.updates inputs).counts_until_update = 255 →
              ((m.updates inputs).update timestamp dir).counts_until_update = 0)
          ∧ ((m.updates inputs).update timestamp dir).count
              = (if dir then (m.updates inputs).count - 1 else (m.updates inputs).count + 1)
          ∧ ((m.updates inputs).update timestamp dir).count ≠ (m.updates inputs).count) := by
  obtain ⟨q1, q2, q3, q4, -, q6⟩ := motorEncoder.updates_cadence_255 inputs m h255
  have hnot := motorEncoder.not_due_of_cadence_255 (m.updates inputs) q6
  refine ⟨q1, q2, q3, q4, hnot, ?_⟩
  intro timestamp dir
  obtain ⟨-, -, -, -, e5, -, -⟩ :=
    motorEncoder.update_of_not_due (m.updates inputs) timestamp dir hnot
  have hcount : ((m.updates inputs).update timestamp dir).count
      = (if dir then (m.updates inputs).count - 1 else (m.updates inputs).count + 1) := by
    unfold motorEncoder.update_due at hnot
    simp [motorEncoder.update, hnot]
  refine ⟨?_, ?_, hcount, ?_⟩
  · rw [e5]
    have := Nat.mod_lt ((m.updates inputs).counts_until_update + 1) (show 256 > 0 by decide)
    omega
  · intro hc
    rw [e5, hc]
  · rw [hcount]
    cases dir <;> simp

/-- Witness of C28: the constructed estimator with cadence 255, two calls: the stored timestamp
is still 0 and the next call is not due. -/
theorem update_cadence_255_never_due_witness :
    (motorEncoder.new 0 20 255).update_frequency = 255
      ∧ ((motorEncoder.new 0 20 255).updates
          [(100, false), (200, true)]).timestamp_previous_interrupt = 0
      ∧ ¬ ((motorEncoder.new 0 20 255).updates [(100, false), (200, true)]).update_due :=
  ⟨rfl,
   (update_cadence_255_never_due (motorEncoder.new 0 20 255) [(100, false), (200, true)]
      rfl).2.2.1,
   (update_cadence_255_never_due (motorEncoder.new 0 20 255) [(100, false), (200, true)]
      rfl).2.2.2.2.1⟩

/-! ## The tick delta of a window -/

/-- Every call of `update` steps the position by one tick, down with `dir` set and up
without. -/
theorem motorEncoder.update_count (m : motorEncoder) (timestamp : Nat) (dir : Bool) :
    (m.update timestamp dir).count = m.count + (if dir then (-1 : Int) else 1) := by
  unfold motorEncoder.update
  simp only []
  split_ifs <;> simp <;> ring

/-- A sequence of calls of `update` moves the position by the sum of its steps. -/
theorem motorEncoder.updates_count (inputs : List (Nat × Bool)) : ∀ m : motorEncoder,
    (m.updates inputs).count = m.count + netTicks inputs := by
  induction inputs with
  | nil =>
    intro m
    simp [motorEncoder.updates, netTicks]
  | cons input rest ih =>
    intro m
    have hrun : m.updates (input :: rest) = (m.update input.1 input.2).updates rest := rfl
    rw [hrun, ih, motorEncoder.update_count]
    simp only [netTicks, List.map_cons, List.sum_cons]
    ring

/-- The sum of the steps of a sequence lies between minus its length and its length. -/
theorem netTicks_bounds (inputs : List (Nat × Bool)) :
    -(inputs.length : Int) ≤ netTicks inputs ∧ netTicks inputs ≤ inputs.length := by
  induction inputs with
  | nil => simp [netTicks]
  | cons input rest ih =>
    obtain ⟨h1, h2⟩ := ih
    simp only [netTicks, List.map_cons, List.sum_cons, List.length_cons] at h1 h2 ⊢
    push_cast
    split_ifs <;> constructor <;> omega

/-- The sum of the steps equals the length exactly when every call stepped up. -/
theorem netTicks_eq_length (inputs : List (Nat × Bool)) :
    netTicks inputs = inputs.length ↔ ∀ input ∈ inputs, input.2 = false := by
  induction inputs with
  | nil => simp [netTicks]
  | cons input rest ih =>
    obtain ⟨h1, h2⟩ := netTicks_bounds rest
    simp only [List.mem_cons, forall_eq_or_imp, ← ih]
    simp only [netTicks, List.map_cons, List.sum_cons, List.length_cons] at h1 h2 ⊢
    push_cast
    cases input.2 <;> simp <;> omega

/-- The sum of the steps equals minus the length exactly when every call stepped down. -/
theorem netTicks_eq_neg_length (inputs : List (Nat × Bool)) :
    netTicks inputs = -(inputs.length : Int) ↔ ∀ input ∈ inputs, input.2 = true := by
  induction inputs with
  | nil => simp [netTicks]
  | cons input rest ih =>
    obtain ⟨h1, h2⟩ := netTicks_bounds rest
    simp only [List.mem_cons, forall_eq_or_imp, ← ih]
    simp only [netTicks, List.map_cons, List.sum_cons, List.length_cons] at h1 h2 ⊢
    push_cast
    cases input.2 <;> simp
    omega

/-- One call of `update` keeps the window invariant: the tick counter is at most the cadence and
the position is at most that many ticks away from the stored position. -/
theorem motorEncoder.update_window_inv (m : motorEncoder) (timestamp : Nat) (dir : Bool)
    (hN : m.update_frequency < 255) (hc : m.counts_until_update ≤ m.update_frequency)
    (hd : |m.count - m.count_previous_interrupt| ≤ (m.counts_until_update : Int)) :
    (m.update timestamp dir).update_frequency = m.update_frequency
      ∧ (m.update timestamp dir).counts_until_update ≤ m.update_frequency
      ∧ |(m.update timestamp dir).count - (m.update timestamp dir).count_previous_interrupt|
          ≤ ((m.update timestamp dir).counts_until_update : Int) := by
  have hmod : (m.counts_until_update + 1) % 256 = m.counts_until_update + 1 :=
    Nat.mod_eq_of_lt (by omega)
  by_cases hdue : m.update_due
  · obtain ⟨e1, -, e3⟩ := motorEncoder.update_of_due m timestamp dir hdue
    refine ⟨(motorEncoder.update_keeps_configuration m timestamp dir).2, ?_, ?_⟩
    · rw [e1]
      exact Nat.zero_le _
    · rw [e3, e1]
      simp
  · obtain ⟨-, -, -, e4, e5, e6, -⟩ := motorEncoder.update_of_not_due m timestamp dir hdue
    have hlt : m.counts_until_update + 1 ≤ m.update_frequency := by
      unfold motorEncoder.update_due at hdue
      rw [hmod] at hdue
      omega
    refine ⟨e6, ?_, ?_⟩
    · rw [e5, hmod]
      exact hlt
    · rw [e4, e5, hmod, motorEncoder.update_count]
      rw [abs_le] at hd ⊢
      push_cast
      cases dir <;> simp <;> constructor <;> omega

/-- Every sequence of calls of `update` keeps the window invariant. -/
theorem motorEncoder.updates_window_inv (inputs : List (Nat × Bool)) : ∀ m : motorEncoder,
    m.update_frequency < 255 → m.counts_until_update ≤ m.update_frequency →
    |m.count - m.count_previous_interrupt| ≤ (m.counts_until_update : Int) →
    (m.updates inputs).update_frequency = m.update_frequency
      ∧ (m.updates inputs).counts_until_update ≤ m.update_frequency
      ∧ |(m.updates inputs).count - (m.updates inputs).count_previous_interrupt|
          ≤ ((m.updates inputs).counts_until_update : Int) := by
  induction inputs with
  | nil =>
    intro m _ hc hd
    exact ⟨rfl, hc, hd⟩
  | cons input rest ih =>
    intro m hN hc hd
    obtain ⟨u1, u2, u3⟩ := motorEncoder.update_window_inv m input.1 input.2 hN hc hd
    obtain ⟨i1, i2, i3⟩ := ih (m.update input.1 input.2) (by rw [u1]; exact hN)
      (by rw [u1]; exact u2) u3
    have hrun : m.updates (input :: rest) = (m.update input.1 input.2).updates rest := rfl
    rw [hrun]
    exact ⟨by rw [i1, u1], by rw [← u1]; exact i2, i3⟩

/-- C29: for every update cadence `N < 255` and every sequence of calls of `update` starting from
the constructed estimator, the state before the next call has a tick counter of at most `N`
and `|position - previous position| ≤ tick counter`; hence the tick delta of a call that
enters the rate-update branch is at most `N + 1`. For a window, that is `N` calls followed by
one more from a state whose tick counter is 0, the last call enters the branch and its tick
delta equals `N + 1` exactly when all `N + 1` calls of the window had the same direction. -/
theorem tick_delta_bounded_by_window (motorSpeed : Int) (R N : Nat)
    (inputs pre : List (Nat × Bool)) (last : Nat × Bool) (hN : N < 255) :
    ((motorEncoder.new motorSpeed R N).updates inputs).counts_until_update ≤ N
      ∧ |((motorEncoder.new motorSpeed R N).updates inputs).count
          - ((motorEncoder.new motorSpeed R N).updates inputs).count_previous_interrupt|
          ≤ (((motorEncoder.new motorSpeed R N).updates inputs).counts_until_update : Int)
      ∧ (∀ (timestamp : Nat) (dir : Bool),
          ((motorEncoder.new motorSpeed R N).updates inputs).update_due →
          |(((motorEncoder.new motorSpeed R N).updates inputs).update timestamp dir).count
            - ((motorEncoder.new motorSpeed R N).updates inputs).count_previous_interrupt|
            ≤ (N : Int) + 1)
      ∧ (((motorEncoder.new motorSpeed R N).updates inputs).counts_until_update = 0 →
          pre.length = N →
          (((motorEncoder.new motorSpeed R N).updates inputs).updates pre).update_due
          ∧ (|((((motorEncoder.new motorSpeed R N).updates inputs).updates pre).update
                  last.1 last.2).count
                - (((motorEncoder.new motorSpeed R N).updates inputs).updates
                    pre).count_previous_interrupt| = (N : Int) + 1
              ↔ (∀ input ∈ pre ++ [last], input.2 = true)
                ∨ (∀ input ∈ pre ++ [last], input.2 = false))) := by
  obtain ⟨w1, w2, w3⟩ := motorEncoder.updates_window_inv inputs (motorEncoder.new motorSpeed R N)
    hN (Nat.zero_le _) (by simp [motorEncoder.new])
  have w1N : ((motorEncoder.new motorSpeed R N).updates inputs).update_frequency = N := w1
  generalize (motorEncoder.new motorSpeed R N).updates inputs = m at w1N w2 w3 ⊢
  have w2N : m.counts_until_update ≤ N := w2
  refine ⟨w2N, w3, ?_, ?_⟩
  · intro timestamp dir _
    rw [motorEncoder.update_count]
    rw [abs_le] at w3 ⊢
    have : (m.counts_until_update : Int) ≤ N := by exact_mod_cast w2N
    cases dir <;> simp <;> constructor <;> omega
  · intro h0 hlen
    obtain ⟨-, -, -, q4, q5, q6⟩ :=
      motorEncoder.updates_quiet pre m (by omega) (by omega)
    rw [h0, Nat.zero_add, hlen] at q5
    rw [w1N] at q6
    have hprev : m.count_previous_interrupt = m.count := by
      rw [h0] at w3
      have := abs_nonneg (m.count - m.count_previous_interrupt)
      have h := le_antisymm w3 this
      rw [Nat.cast_zero, abs_eq_zero] at h
      omega
    have hdue : (m.updates pre).update_due := by
      unfold motorEncoder.update_due
      rw [q5, q6, Nat.mod_eq_of_lt (by omega)]
      omega
    refine ⟨hdue, ?_⟩
    have hnet : ((m.updates pre).update last.1 last.2).count
        - (m.updates pre).count_previous_interrupt = netTicks (pre ++ [last]) := by
      rw [motorEncoder.update_count, motorEncoder.updates_count, q4, hprev]
      simp only [netTicks, List.map_append, List.sum_append, List.map_cons, List.map_nil,
        List.sum_cons, List.sum_nil]
      ring
    have hlen2 : ((pre ++ [last]).length : Int) = (N : Int) + 1 := by
      rw [List.length_append, hlen]
      simp
    obtain ⟨b1, b2⟩ := netTicks_bounds (pre ++ [last])
    rw [hnet, ← netTicks_eq_neg_length, ← netTicks_eq_length, hlen2]
    rw [hlen2] at b1 b2
    constructor
    · intro h
      rcases abs_cases (netTicks (pre ++ [last])) with ⟨ha, _⟩ | ⟨ha, _⟩
      · right
        omega
      · left
        omega
    · intro h
      rcases h with h | h
      · rw [h, abs_neg]
        exact abs_of_nonneg (by omega)
      · rw [h]
        exact abs_of_nonneg (by omega)

/-- Witness of C29: cadence 2, the constructed estimator, a window of three calls in the same
direction: the tick counter before the window is 0 and the third call is due. -/
theorem tick_delta_bounded_by_window_witness :
    (2 : Nat) < 255
      ∧ ((motorEncoder.new 0 20 2).updates []).counts_until_update ≤ 2
      ∧ (((motorEncoder.new 0 20 2).updates []).updates [(100, false), (200, false)]).update_due :=
  ⟨by decide,
   (tick_delta_bounded_by_window 0 20 2 [] [(100, false), (200, false)] (300, false)
      (by decide)).1,
   ((tick_delta_bounded_by_window 0 20 2 [] [(100, false), (200, false)] (300, false)
      (by decide)).2.2.2 rfl rfl).1⟩

/-! ## The redraw of a button -/

/-- C24, the claim refuted: the button "Set" with the refresh flag raised and the value 4 in
`state`, which is none of the four visual states: `update` issues no redraw request although
the flag was raised, and lowers the flag. -/
theorem update_without_redraw_counterexample :
    ({ screenButton.new "Set" 0 0 REGULAR with refresh := true, state := some 4 }
        : screenButton).refresh = true
      ∧ (({ screenButton.new "Set" 0 0 REGULAR with refresh := true, state := some 4 }
          : screenButton).update []).2 = []
      ∧ (({ screenButton.new "Set" 0 0 REGULAR with refresh := true, state := some 4 }
          : screenButton).update []).1.refresh = false := by
  refine ⟨rfl, ?_, ?_⟩ <;> decide

/-- C24 as amended: for every button and every value of its fields, `update` issues a redraw
request if and only if the refresh flag is raised on entry and `state` holds one of the four
visual states; it issues at most one, the one matching the visual state (`displayRegular` with
action 0 for unpressed, `PRESSED` for pressed, `ERASE` for hidden, `displayHover` for hovered);
it leaves the flag lowered, and leaves the visual state, the label and the position
unchanged. -/
theorem update_redraws_when_dirty (b : screenButton) (display : List DrawRequest) :
    ((b.update display).2 ≠ display ↔
        b.refresh = true
        ∧ (b.state = some UNPRESSED ∨ b.state = some PRESSED ∨ b.state = some OFF
            ∨ b.state = some HOVER))
      ∧ ((b.update display).2 = display
          ∨ ∃ request : DrawRequest, (b.update display).2 = display ++ [request])
      ∧ (b.refresh = true → b.state = some UNPRESSED →
          (b.update display).2 = display ++ [DrawRequest.displayRegular b 0])
      ∧ (b.refresh = true → b.state = some PRESSED →
          (b.update display).2 = display ++ [DrawRequest.displayRegular b PRESSED])
      ∧ (b.refresh = true → b.state = some OFF →
          (b.update display).2 = display ++ [DrawRequest.displayRegular b ERASE])
      ∧ (b.refresh = true → b.state = some HOVER →
          (b.update display).2 = display ++ [DrawRequest.displayHover b])
      ∧ (b.update display).1.refresh = false
      ∧ (b.update display).1.state = b.state
      ∧ (b.update display).1.text = b.text
      ∧ (b.update display).1.x_coord = b.x_coord
      ∧ (b.update display).1.y_coord = b.y_coord := by
  obtain ⟨rad, w, h, ty, refresh, st, txt, x, y⟩ := b
  cases refresh
  · simp [screenButton.update]
  · by_cases h0 : st = some UNPRESSED
    · subst h0
      simp [screenButton.update, UNPRESSED, PRESSED, OFF, HOVER]
    · by_cases h1 : st = some PRESSED
      · subst h1
        simp [screenButton.update, UNPRESSED, PRESSED, OFF, HOVER]
      · by_cases h2 : st = some OFF
        · subst h2
          simp [screenButton.update, UNPRESSED, PRESSED, OFF, HOVER]
        · by_cases h3 : st = some HOVER
          · subst h3
            simp [screenButton.update, UNPRESSED, PRESSED, OFF, HOVER]
          · simp [screenButton.update, h0, h1, h2, h3]

/-! ## Reversing a decoder step -/

/-- C25, as stated, fails where `count + resolution` overflows: at count 2147483640,
max_count 2147483647, resolution 10 and stored sample 0, the step with the sample 2 changes the
count to -2147483646; the following step with the sample 0 has key 8, its guard
`count ≥ resolution` fails, and the count stays -2147483646. -/
theorem update_spin_reversible_counterexample :
    (1 : Int) ≤ 10 ∧ (0 : Int) ≤ 2147483640 ∧ (2147483640 : Int) ≤ 2147483647
      ∧ 0 = 2 * digitalRead false + digitalRead false
      ∧ (Encoder.update_spin_int32
          { current_reading := 0, previous_reading := 0, pressed := false,
            count := 2147483640, max_count := 2147483647, resolution := 10 }
          false true).1.count ≠ 2147483640
      ∧ (4 * 2 + 0 ∈ [14, 7, 1, 8])
      ∧ ¬ ((Encoder.update_spin_int32
          { current_reading := 0, previous_reading := 0, pressed := false,
            count := 2147483640, max_count := 2147483647, resolution := 10 }
          false true).1.count ≥ 10)
      ∧ (Encoder.update_spin_int32
          (Encoder.update_spin_int32
            { current_reading := 0, previous_reading := 0, pressed := false,
              count := 2147483640, max_count := 2147483647, resolution := 10 }
            false true).1
          false false).1.count = -2147483646
      ∧ (Encoder.update_spin_int32
          (Encoder.update_spin_int32
            { current_reading := 0, previous_reading := 0, pressed := false,
              count := 2147483640, max_count := 2147483647, resolution := 10 }
            false true).1
          false false).1.count ≠ 2147483640 := by
  decide

/-- C25, amended: for every selector with `resolution ≥ 1`, `0 ≤ count ≤ max_count` and
`count + resolution` representable as `int` (at most 2147483647), whose stored
previous sample is the sample `a` of the line readings `(A0, B0)`, and every new sample of line
readings `(A, B)`: if `update_spin` with the new sample changes the count, a following
`update_spin` with the sample `a` restores the count; and the key `4*a + b` is one of
13, 4, 2, 11 exactly when the key `4*b + a` of the reversed transition is one of
14, 7, 1, 8. -/
theorem update_spin_int32_reversible (e : Encoder) (A B A0 B0 : Bool)
    (hres : 1 ≤ e.resolution) (hlo : 0 ≤ e.count) (hhi : e.count ≤ e.max_count)
    (hfit : e.count + e.resolution ≤ 2147483647)
    (ha : e.previous_reading = 2 * digitalRead B0 + digitalRead A0)
    (hchange : (e.update_spin_int32 A B).1.count ≠ e.count) :
    ((e.update_spin_int32 A B).1.update_spin_int32 A0 B0).1.count = e.count
      ∧ ∀ a b : Fin 4, (4 * a.val + b.val ∈ [13, 4, 2, 11] ↔ 4 * b.val + a.val ∈ [14, 7, 1, 8]) := by
  refine ⟨?_, by decide⟩
  have hup : int32 (e.count + e.resolution) = e.count + e.resolution :=
    int32_of_InInt32 _ ⟨by omega, hfit⟩
  have hdown : int32 (e.count - e.resolution) = e.count - e.resolution :=
    int32_of_InInt32 _ ⟨by omega, by omega⟩
  have hback : int32 (e.count + e.resolution - e.resolution) = e.count :=
    (int32_of_InInt32 _ ⟨by omega, by omega⟩).trans (by omega)
  have hforth : int32 (e.count - e.resolution + e.resolution) = e.count :=
    (int32_of_InInt32 _ ⟨by omega, by omega⟩).trans (by omega)
  obtain ⟨cr, pr, p, c, m, res⟩ := e
  simp only at hres hlo hhi hfit ha hchange hup hdown hback hforth
  subst ha
  revert hchange
  cases A <;> cases B <;> cases A0 <;> cases B0 <;>
    simp [Encoder.update_spin_int32, digitalRead, hup, hdown] <;> intros <;>
    simp_all <;> omega

/-- Witness of C25: the constructed encoder (stored sample 0, readings low and low), one step up
with the sample 2 and back with the sample 0: the count is 0 again. -/
theorem update_spin_int32_reversible_witness :
    (Encoder.new.update_spin_int32 false true).1.count ≠ Encoder.new.count
      ∧ ((Encoder.new.update_spin_int32 false true).1.update_spin_int32 false false).1.count
          = Encoder.new.count :=
  ⟨by decide,
   (update_spin_int32_reversible Encoder.new false true false false (by decide) (by decide)
     (by decide) (by decide) (by decide) (by decide)).1⟩

/-! ## At most one button is hovered -/

/-- The one-hover invariant holds for the constructed interface. -/
theorem OneHoverInv_new : OneHoverInv routerInterface.new := by
  unfold OneHoverInv
  decide

/-- The five `update` calls keep the one-hover invariant. -/
theorem OneHoverInv_updateButtons (ui : routerInterface) (h : OneHoverInv ui) :
    OneHoverInv ui.updateButtons := by
  obtain ⟨hS, hV, hR, hP, hM⟩ := routerInterface.updateButtons_state ui
  unfold OneHoverInv
  rw [hS, hV, hR, hP, hM, routerInterface.updateButtons_button_state]
  exact h

/-- A press handled in a state with the one-hover invariant leads to one with it. -/
theorem OneHoverInv_managePress (s : System) (h : OneHoverInv s.ui) :
    OneHoverInv (routerInterface.managePress s).ui := by
  obtain ⟨hM, h4, h0, h1, h2⟩ := h
  unfold routerInterface.managePress
  simp only []
  split_ifs <;>
    simp_all [OneHoverInv, screenButton.setState, HOVER, PRESSED, UNPRESSED, OFF]

/-- A tick in a state with the one-hover invariant leads to one with it, whatever the selector
holds. -/
theorem OneHoverInv_refresh (s : System) (uninit : Int) (h : OneHoverInv s.ui) :
    OneHoverInv (routerInterface.refresh s uninit).ui := by
  have hu : OneHoverInv s.ui.updateButtons := OneHoverInv_updateButtons s.ui h
  unfold routerInterface.refresh
  simp only []
  split_ifs with hp b1 b2 b3 b4
  · exact OneHoverInv_managePress _ hu
  · obtain ⟨hM, h4, h0, h1, h2⟩ := hu
    unfold routerInterface.manageSet
    simp only []
    split_ifs <;>
      simp_all [OneHoverInv, screenButton.setState, HOVER, PRESSED, UNPRESSED, OFF]
  · obtain ⟨hM, h4, h0, h1, h2⟩ := hu
    simp_all [OneHoverInv, routerInterface.manageView]
  · obtain ⟨hM, h4, h0, h1, h2⟩ := hu
    simp_all [OneHoverInv, routerInterface.manageRes]
    split_ifs <;> simp_all
  · obtain ⟨hM, h4, h0, h1, h2⟩ := hu
    simp_all [OneHoverInv, routerInterface.manageSpeed]
  · obtain ⟨hM, h4, h0, h1, h2⟩ := hu
    have hb0 : s.ui.updateButtons.button_state = 0 := by
      simp only [] at b1 b2 b3 b4
      omega
    unfold routerInterface.manageSpin
    simp only []
    split_ifs <;>
      simp_all [OneHoverInv, screenButton.setState, HOVER, PRESSED, UNPRESSED, OFF]

/-- From the one-hover invariant: at most one of the five buttons is hovered. -/
theorem hoverCount_le_one (ui : routerInterface) (h : OneHoverInv ui) : ui.hoverCount ≤ 1 := by
  obtain ⟨hM, h4, h0, h1, h2⟩ := h
  have hcases : ui.button_state = 0 ∨ ui.button_state = 1 ∨ 2 ≤ ui.button_state := by omega
  unfold routerInterface.hoverCount
  simp only [List.countP_cons, List.countP_nil]
  by_cases kS : ui.SET.state = some HOVER <;> by_cases kV : ui.VIEW.state = some HOVER <;>
    by_cases kR : ui.RES.state = some HOVER <;> by_cases kP : ui.SPEED.state = some HOVER <;>
    simp [kS, kV, kR, kP, hM] <;> rcases hcases with b | b | b <;> simp_all

/-- Every sequence of ticks with arbitrary selector values keeps the one-hover invariant. -/
theorem OneHoverInv_ticks (inputs : List (Encoder × Int)) : ∀ s : System,
    OneHoverInv s.ui → OneHoverInv (inputs.foldl tickWith s).ui := by
  induction inputs with
  | nil =>
    intro s h
    exact h
  | cons input rest ih =>
    intro s h
    exact ih (tickWith s input) (OneHoverInv_refresh _ input.2 h)

/-- Every event keeps the one-hover invariant. -/
theorem OneHoverInv_step (s : System) (ev : Event) (h : OneHoverInv s.ui) :
    OneHoverInv (step s ev).ui := by
  cases ev with
  | spin A B => exact h
  | press pin => exact h
  | tick uninit => exact OneHoverInv_refresh s uninit h
  | motorSample speed => exact h

/-- Every event sequence keeps the one-hover invariant. -/
theorem OneHoverInv_run (events : List Event) (s : System) (h : OneHoverInv s.ui) :
    OneHoverInv (run s events).ui := by
  induction events generalizing s with
  | nil => exact h
  | cons ev rest ih => exact ih (step s ev) (OneHoverInv_step s ev h)

/-- C26: in every state reached from the constructed interface by ticks of `refresh` with
arbitrary selector values and press flags, at most one of the five buttons SET, VIEW, RES,
SPEED, MES has the visual state `HOVER`, a button whose state was never assigned counting as
not hovered. -/
theorem at_most_one_button_hovered (s : System) (hs : TickReachable s) :
    s.ui.hoverCount ≤ 1 := by
  obtain ⟨inputs, rfl⟩ := hs
  exact hoverCount_le_one _ (OneHoverInv_ticks inputs startup OneHoverInv_new)

/-- Witness of C26: two ticks from the constructed interface, the first with the press flag set
(into SetMenu), the second with the selector at count 2 of resolution 1 (RES hovered). -/
theorem at_most_one_button_hovered_witness :
    TickReachable
        ([({ Encoder.new with pressed := true }, (0 : Int)),
          ({ Encoder.new with count := 2, max_count := 3 }, (0 : Int))].foldl tickWith startup)
      ∧ ([({ Encoder.new with pressed := true }, (0 : Int)),
          ({ Encoder.new with count := 2, max_count := 3 }, (0 : Int))].foldl tickWith
            startup).ui.RES.state = some HOVER
      ∧ ([({ Encoder.new with pressed := true }, (0 : Int)),
          ({ Encoder.new with count := 2, max_count := 3 }, (0 : Int))].foldl tickWith
            startup).ui.hoverCount ≤ 1 :=
  ⟨⟨_, rfl⟩, by decide,
   at_most_one_button_hovered _ ⟨_, rfl⟩⟩

/-- C27: in every state of the running program with the menu in ViewMode (`button_state = 2`),
SET is not hovered; so a press in ViewMode takes the branch that leaves VIEW hovered and sets
the setpoint readout SPEED and the measured-speed readout MES to hidden with their refresh
flags raised. -/
theorem ViewMode_press_hides_readouts (s : System) (hs : Reachable s)
    (h2 : s.ui.button_state = 2) :
    s.ui.SET.state ≠ some HOVER
      ∧ (routerInterface.managePress s).ui.VIEW.state = some HOVER
      ∧ (routerInterface.managePress s).ui.SPEED.state = some OFF
      ∧ (routerInterface.managePress s).ui.MES.state = some OFF
      ∧ (routerInterface.managePress s).ui.SPEED.refresh = true
      ∧ (routerInterface.managePress s).ui.MES.refresh = true
      ∧ (routerInterface.managePress s).ui.button_state = 0 := by
  obtain ⟨events, rfl⟩ := hs
  have hinv := OneHoverInv_run events startup OneHoverInv_new
  have hS : (run startup events).ui.SET.state ≠ some HOVER :=
    (hinv.2.2.2.2 (by omega)).1
  refine ⟨hS, ?_⟩
  simp [routerInterface.managePress, h2, hS, screenButton.setState]

/-- Witness of C27: ViewMode as entered from startup (one step to hover VIEW, then a press): SET
is not hovered and the next press leaves VIEW hovered. -/
theorem ViewMode_press_hides_readouts_witness :
    Reachable (run startup (turnWithTicks 0 1 ++ pressAndTick))
      ∧ (run startup (turnWithTicks 0 1 ++ pressAndTick)).ui.button_state = 2
      ∧ (routerInterface.managePress
          (run startup (turnWithTicks 0 1 ++ pressAndTick))).ui.VIEW.state = some HOVER :=
  ⟨⟨_, rfl⟩, by decide,
   (ViewMode_press_hides_readouts (run startup (turnWithTicks 0 1 ++ pressAndTick)) ⟨_, rfl⟩
      (by decide)).2.1⟩

/-! ## The buffer of `parseIntWithEcho` -/

/-- Every write of `parseIntWithEcho` goes to an index in 0..23, except a terminating NUL
written at index 255. -/
theorem parseIntWithEcho_loop_indices : ∀ (stream : List Char) (count : Nat)
    (writes : List (Nat × Char)) (result : List (Nat × Char) × List Char),
    count ≤ 22 → (∀ w ∈ writes, w.1 ≤ 23 ∨ w = (255, Char.ofNat 0)) →
    virtualEncoder.parseIntWithEcho_loop stream count writes = some result →
    ∀ w ∈ result.1, w.1 ≤ 23 ∨ w = (255, Char.ofNat 0) := by
  intro stream
  induction stream with
  | nil =>
    intro count writes result _ _ h
    simp [virtualEncoder.parseIntWithEcho_loop] at h
  | cons ch rest ih =>
    intro count writes result hc hw h
    have hmod : (count + 1) % 256 = count + 1 := Nat.mod_eq_of_lt (by omega)
    have hw1 : ∀ w ∈ writes ++ [(count, ch)], w.1 ≤ 23 ∨ w = (255, Char.ofNat 0) := by
      intro w hmem
      rcases List.mem_append.mp hmem with h1 | h1
      · exact hw w h1
      · simp only [List.mem_singleton] at h1
        subst h1
        left
        show count ≤ 23
        omega
    rw [virtualEncoder.parseIntWithEcho_loop] at h
    simp only [hmod] at h
    split_ifs at h with hret hbs hret2
    · simp only [Option.some.injEq] at h
      subst h
      intro w hmem
      rcases List.mem_append.mp hmem with h1 | h1
      · exact hw1 w h1
      · simp only [List.mem_singleton] at h1
        subst h1
        by_cases h1c : count = 0
        · right
          subst h1c
          rfl
        · left
          show (count + 1 + 256 - 2) % 256 ≤ 23
          omega
    · exact ih _ _ result (by omega) hw1 h
    · simp only [Option.some.injEq] at h
      subst h
      intro w hmem
      rcases List.mem_append.mp hmem with h1 | h1
      · exact hw1 w h1
      · simp only [List.mem_singleton] at h1
        subst h1
        left
        show count + 1 ≤ 23
        omega
    · exact ih _ _ result (by omega) hw1 h

/-- C30 (the code at the failing input). A stream whose first character is a backspace: the
character is stored at index 0, the counter goes to 1 and `count -= 2` wraps it to 255;
`count >= MAX_INT_DIGITS - 1` then holds, so the function returns at once and writes the
terminating NUL at index 255, outside the 24-byte buffer. The same happens when backspaces
bring the counter back to 0 ("a", backspace, backspace). A line without backspace ("12",
newline) is stored at the indices 0, 1, 2 with the NUL at index 3. On every stream, a write
goes to an index in 0..23 unless it is the NUL written at index 255. -/
theorem parseIntWithEcho_writes_outside_buffer :
    virtualEncoder.parseIntWithEcho [Char.ofNat 8]
        = some ([(0, Char.ofNat 8), (255, Char.ofNat 0)], [])
      ∧ ¬ (255 ≤ 23)
      ∧ virtualEncoder.parseIntWithEcho ['a', Char.ofNat 8, Char.ofNat 8, 'b']
        = some ([(0, 'a'), (1, Char.ofNat 8), (0, Char.ofNat 8), (255, Char.ofNat 0)], ['b'])
      ∧ virtualEncoder.parseIntWithEcho ['1', '2', Char.ofNat 10]
        = some ([(0, '1'), (1, '2'), (2, Char.ofNat 10), (3, Char.ofNat 0)], [])
      ∧ (∀ (stream : List Char) (result : List (Nat × Char) × List Char),
          virtualEncoder.parseIntWithEcho stream = some result →
          ∀ w ∈ result.1, w.1 ≤ 23 ∨ w = (255, Char.ofNat 0)) := by
  refine ⟨by decide, by decide, by decide, by decide, ?_⟩
  intro stream result h
  exact parseIntWithEcho_loop_indices stream 0 [] result (by decide) (by simp) h

end Spindle
